import Mathlib

/-!
Collocated vector grid (2-D).

A shallow embedding of `src/jet/collocated_vector_grid2.cpp`.

* Reals (`double`) are exact rationals `ℚ`.
* `size_t` is `Nat`, with an explicit `% SIZE_MOD` at every place where the
  source performs `size_t` arithmetic that can wrap (`i + 1`, `cnt++`,
  `2 * dataSize().x * dataSize().y`).
* A debug assertion (`JET_ASSERT`) that fails, and an element access outside
  the storage, are faults: a reading method returns `Except Fault`, a writing
  method returns a `Run`, the state it leaves behind together with the fault.
* Two places leave exact values and value semantics: `roundDouble` gives the
  double an operation returns, and `Memory` holds grid objects by identity with
  their element storage by address, so that rounding and sharing can be stated.
* The sampler holds a non-owning view of the backing array.  The view is
  embedded as a descriptor (the size of the array at the time the sampler was
  built); element reads made through it go to the owning grid's storage.
-/

namespace jet

/-! ## Scalars and small vectors -/

/-- Number of values of a `size_t` (64-bit). -/
def SIZE_MOD : Nat := 2 ^ 64

/-- The type `Vector2D`: two reals. -/
structure Vector2D where
  x : ℚ
  y : ℚ
deriving DecidableEq

/-- The type `Vector2UZ`: two `size_t`. -/
structure Vector2UZ where
  x : Nat
  y : Nat
deriving DecidableEq

/-- Value-initialised `Vector2D()`. -/
def Vector2D.zero : Vector2D := ⟨0, 0⟩

/-- Sum of two vectors. -/
def Vector2D.add (a b : Vector2D) : Vector2D := ⟨a.x + b.x, a.y + b.y⟩

/-- A vector scaled by a real. -/
def Vector2D.scale (s : ℚ) (a : Vector2D) : Vector2D := ⟨s * a.x, s * a.y⟩

/-- The helper `elemMul(a, b)`: component-wise product. -/
def elemMul (a b : Vector2D) : Vector2D := ⟨a.x * b.x, a.y * b.y⟩

/-- The conversion `idx.castTo<double>()`. -/
def Vector2UZ.castToDouble (v : Vector2UZ) : Vector2D := ⟨(v.x : ℚ), (v.y : ℚ)⟩

/-- The constant `kOneSize`. -/
def kOneSize : Nat := 1

/-- The helper `product(v, init)`: `init * v.x * v.y` in `size_t`. -/
def product (v : Vector2UZ) (init : Nat) : Nat := ((init * v.x) % SIZE_MOD * v.y) % SIZE_MOD

/-! ## Faults -/

/-- What can go wrong in a call: a failed `JET_ASSERT`, an element access
outside the storage, or a call of an empty `std::function`. -/
inductive Fault where
  | assertion
  | outOfRange
  | badFunctionCall
deriving DecidableEq

/-- Modelled from the spec: the macro `JET_ASSERT` (not in the sources at hand),
a debug-time assertion; a false condition is a precondition violation. -/
def JET_ASSERT (c : Bool) : Except Fault Unit :=
  if c then .ok () else .error Fault.assertion

/-- The state a mutating call leaves, and the fault that stopped it, if any. -/
structure Run (σ : Type) where
  state : σ
  fault : Option Fault

/-- Sequencing of mutating steps: nothing runs after a fault. -/
def Run.andThen {σ : Type} (r : Run σ) (f : σ → Run σ) : Run σ :=
  match r.fault with
  | none => f r.state
  | some _ => r

/-! ## Traversal -/

/-- Modelled from the spec: `forEachIndex(size, func)` (not in the sources at
hand), the sequential traversal of every index `(i, j)` with `i < size.x` and
`j < size.y`, `i` running fastest; the list is the order of the visits. -/
def forEachIndex (size : Vector2UZ) : List (Nat × Nat) :=
  (List.range size.y).flatMap (fun j => (List.range size.x).map (fun i => (i, j)))

/-! ## The backing array -/

/-- Modelled from the spec: `Array2<Vector2D>` (not in the sources at hand), a
contiguous 2-D array; element `(i, j)` is stored at offset `i + size.x * j`. -/
structure Array2 where
  size : Vector2UZ
  data : List Vector2D
deriving DecidableEq

/-- An empty array, as left by the default constructor. -/
def Array2.empty : Array2 := ⟨⟨0, 0⟩, []⟩

/-- Element read `_data(i, j)`; an index outside the array is a fault. -/
def Array2.get? (a : Array2) (i j : Nat) : Except Fault Vector2D :=
  if i < a.size.x ∧ j < a.size.y then
    match a.data[i + a.size.x * j]? with
    | some v => .ok v
    | none => .error Fault.outOfRange
  else .error Fault.outOfRange

/-- Element write `_data(i, j) = v`; an index outside the array is a fault and
leaves the array as it was. -/
def Array2.set (a : Array2) (i j : Nat) (v : Vector2D) : Run Array2 :=
  if i < a.size.x ∧ j < a.size.y ∧ i + a.size.x * j < a.data.length then
    ⟨{ a with data := a.data.set (i + a.size.x * j) v }, none⟩
  else ⟨a, some Fault.outOfRange⟩

/-! ## Geometry, sampler and grid state -/

/-- Modelled from the spec: `LinearArraySampler2<Vector2D>` (not in the sources
at hand).  Its state is the view of the array it was built over, the grid
spacing and the origin. -/
structure LinearArraySampler2 where
  viewSize : Vector2UZ
  gridSpacing : Vector2D
  gridOrigin : Vector2D
deriving DecidableEq

/-- The constructor `LinearArraySampler2(data, gridSpacing, gridOrigin)`. -/
def LinearArraySampler2.create (data : Array2) (gridSpacing gridOrigin : Vector2D) :
    LinearArraySampler2 :=
  ⟨data.size, gridSpacing, gridOrigin⟩

/-- The state of a `CollocatedVectorGrid2`: the geometry kept by the base class
(`resolution`, `gridSpacing`, `origin`), the backing array `_data`, the sampler
`_linearSampler`, and `_sampler`, a `std::function` that is either empty or holds
the function object that captured a copy of the sampler. -/
structure CollocatedVectorGrid2 where
  resolution : Vector2UZ
  gridSpacing : Vector2D
  origin : Vector2D
  _data : Array2
  _linearSampler : LinearArraySampler2
  _sampler : Option LinearArraySampler2
deriving DecidableEq

/-- Modelled from the spec: `dataSize()` (declared by the base class, not in the
sources at hand), the lattice's data resolution. -/
def CollocatedVectorGrid2.dataSize (g : CollocatedVectorGrid2) : Vector2UZ := g.resolution

/-- Modelled from the spec: `dataOrigin()` (declared by the base class, not in
the sources at hand), the position of the lowest data point. -/
def CollocatedVectorGrid2.dataOrigin (g : CollocatedVectorGrid2) : Vector2D := g.origin

/-- Const element access `operator()(i, j)`. -/
def CollocatedVectorGrid2.get (g : CollocatedVectorGrid2) (i j : Nat) : Except Fault Vector2D :=
  g._data.get? i j

/-- Finite-difference divergence at the data point `(i, j)`. -/
def CollocatedVectorGrid2.divergenceAtDataPoint (g : CollocatedVectorGrid2) (i j : Nat) :
    Except Fault ℚ := do
  let ds := g._data.size
  let gs := g.gridSpacing
  JET_ASSERT (decide (i < ds.x) && decide (j < ds.y))
  let left := (← g._data.get? (if i > 0 then i - 1 else i) j).x
  let right := (← g._data.get? (if (i + 1) % SIZE_MOD < ds.x then (i + 1) % SIZE_MOD else i) j).x
  let down := (← g._data.get? i (if j > 0 then j - 1 else j)).y
  let up := (← g._data.get? i (if (j + 1) % SIZE_MOD < ds.y then (j + 1) % SIZE_MOD else j)).y
  pure (0.5 * (right - left) / gs.x + 0.5 * (up - down) / gs.y)

/-- Finite-difference curl at the data point `(i, j)`. -/
def CollocatedVectorGrid2.curlAtDataPoint (g : CollocatedVectorGrid2) (i j : Nat) :
    Except Fault ℚ := do
  let ds := g._data.size
  let gs := g.gridSpacing
  JET_ASSERT (decide (i < ds.x) && decide (j < ds.y))
  let left ← g._data.get? (if i > 0 then i - 1 else i) j
  let right ← g._data.get? (if (i + 1) % SIZE_MOD < ds.x then (i + 1) % SIZE_MOD else i) j
  let bottom ← g._data.get? i (if j > 0 then j - 1 else j)
  let top ← g._data.get? i (if (j + 1) % SIZE_MOD < ds.y then (j + 1) % SIZE_MOD else j)
  let Fx_ym := bottom.x
  let Fx_yp := top.x
  let Fy_xm := left.y
  let Fy_xp := right.y
  pure (0.5 * (Fy_xp - Fy_xm) / gs.x - 0.5 * (Fx_yp - Fx_ym) / gs.y)

/-! ## The sampler kernel and the continuous operators -/

/-- Modelled from the spec: `getBarycentric(x, iLow, iHigh)` (not in the sources
at hand): the lower index bound of `x` clamped to `[iLow, iHigh - 1]` and the
fractional distance to it; no extrapolation beyond either end. -/
def getBarycentric (x : ℚ) (iLow iHigh : Int) : Int × ℚ :=
  let s : Int := Int.floor x
  if iLow = iHigh then (iLow, 0)
  else if s < iLow then (iLow, 0)
  else if s > iHigh - 1 then (iHigh - 1, 1)
  else (s, x - s)

/-- Conversion of a signed index to `size_t`. -/
def toSize (z : Int) : Nat := (z % (SIZE_MOD : Int)).toNat

/-- Modelled from the spec: `getCoordinatesAndWeights(x, indices, weights)` of the
linear sampler (not in the sources at hand): the four indices are the lower and
upper bound in each axis, clamped to the valid index range of the view, and the
weights are the bilinear products of the fractional distances. -/
def LinearArraySampler2.getCoordinatesAndWeights (s : LinearArraySampler2) (x : Vector2D) :
    (Fin 4 → Vector2UZ) × (Fin 4 → ℚ) :=
  let nx : ℚ := (x.x - s.gridOrigin.x) / s.gridSpacing.x
  let ny : ℚ := (x.y - s.gridOrigin.y) / s.gridSpacing.y
  let iSize : Int := s.viewSize.x
  let jSize : Int := s.viewSize.y
  let bx := getBarycentric nx 0 (iSize - 1)
  let by_ := getBarycentric ny 0 (jSize - 1)
  let i := bx.1
  let fx := bx.2
  let j := by_.1
  let fy := by_.2
  let ip1 := min (i + 1) (iSize - 1)
  let jp1 := min (j + 1) (jSize - 1)
  (![⟨toSize i, toSize j⟩, ⟨toSize ip1, toSize j⟩, ⟨toSize i, toSize jp1⟩,
      ⟨toSize ip1, toSize jp1⟩],
   ![(1 - fx) * (1 - fy), fx * (1 - fy), (1 - fx) * fy, fx * fy])

/-- The method `divergence(x)`: the loop over the four kernel points. -/
def CollocatedVectorGrid2.divergence (g : CollocatedVectorGrid2) (x : Vector2D) :
    Except Fault ℚ :=
  let cw := g._linearSampler.getCoordinatesAndWeights x
  let indices := cw.1
  let weights := cw.2
  ([0, 1, 2, 3] : List (Fin 4)).foldlM (fun (result : ℚ) i => do
    let d ← g.divergenceAtDataPoint (indices i).x (indices i).y
    pure (result + weights i * d)) 0

/-- The method `curl(x)`: the loop over the four kernel points. -/
def CollocatedVectorGrid2.curl (g : CollocatedVectorGrid2) (x : Vector2D) :
    Except Fault ℚ :=
  let cw := g._linearSampler.getCoordinatesAndWeights x
  let indices := cw.1
  let weights := cw.2
  ([0, 1, 2, 3] : List (Fin 4)).foldlM (fun (result : ℚ) i => do
    let c ← g.curlAtDataPoint (indices i).x (indices i).y
    pure (result + weights i * c)) 0

/-- Modelled from the spec: the call operator of the linear sampler (not in the
sources at hand): the weighted sum of the values of the viewed array at the four
indices of `getCoordinatesAndWeights`.  The view has the size captured when the
sampler was built and reads the storage it points to, passed here as `storage`. -/
def LinearArraySampler2.call (s : LinearArraySampler2) (storage : Array2) (x : Vector2D) :
    Except Fault Vector2D :=
  let cw := s.getCoordinatesAndWeights x
  let indices := cw.1
  let weights := cw.2
  let view : Array2 := ⟨s.viewSize, storage.data⟩
  ([0, 1, 2, 3] : List (Fin 4)).foldlM (fun (result : Vector2D) i => do
    let v ← view.get? (indices i).x (indices i).y
    pure (result.add (Vector2D.scale (weights i) v))) Vector2D.zero

/-- The method `sample(x)`: a call of `_sampler`, whose view points into `_data`. -/
def CollocatedVectorGrid2.sample (g : CollocatedVectorGrid2) (x : Vector2D) :
    Except Fault Vector2D :=
  match g._sampler with
  | some f => f.call g._data x
  | none => .error Fault.badFunctionCall

/-- The method `dataPosition()`: a function that captured the data origin and
the grid spacing by value. -/
def CollocatedVectorGrid2.dataPosition (g : CollocatedVectorGrid2) : Vector2UZ → Vector2D :=
  let dataOrigin_ := g.dataOrigin
  let gridSpacing_ := g.gridSpacing
  fun idx => dataOrigin_.add (elemMul gridSpacing_ idx.castToDouble)

/-! ## Marshalling -/

/-- Traversal of the grid's data points, `forEachDataPointIndex`. -/
def CollocatedVectorGrid2.forEachDataPointIndex (g : CollocatedVectorGrid2) : List (Nat × Nat) :=
  forEachIndex g._data.size

/-- Modelled from the spec: `Array1<double>::resize(size)` (not in the sources at
hand): the leading elements are kept, new ones are value-initialised. -/
def Array1.resize (data : List ℚ) (size : Nat) : List ℚ :=
  data.take size ++ List.replicate (size - data.length) 0

/-- Buffer write `data[k] = v`; an index outside the buffer is a fault. -/
def Array1.set (data : List ℚ) (k : Nat) (v : ℚ) : Except Fault (List ℚ) :=
  if k < data.length then .ok (data.set k v) else .error Fault.outOfRange

/-- One visit of the traversal in `getData`; the state is the buffer and `cnt`. -/
def getDataStep (a : Array2) (st : List ℚ × Nat) (ij : Nat × Nat) :
    Except Fault (List ℚ × Nat) := do
  let value ← a.get? ij.1 ij.2
  let d1 ← Array1.set st.1 st.2 value.x
  let cnt1 := (st.2 + 1) % SIZE_MOD
  let d2 ← Array1.set d1 cnt1 value.y
  pure (d2, (cnt1 + 1) % SIZE_MOD)

/-- The method `getData(data)`: the buffer passed in is resized and filled; the
result is the buffer after the call.  The grid is not written (a const method). -/
def CollocatedVectorGrid2.getData (g : CollocatedVectorGrid2) (data : List ℚ) :
    Except Fault (List ℚ) := do
  let size := ((2 * g.dataSize.x) % SIZE_MOD * g.dataSize.y) % SIZE_MOD
  let data := Array1.resize data size
  let r ← (forEachIndex g._data.size).foldlM (getDataStep g._data) (data, 0)
  pure r.1

/-- The write `_data(i, j).x = x`. -/
def Array2.setX (a : Array2) (i j : Nat) (x : ℚ) : Run Array2 :=
  match a.get? i j with
  | .ok v => a.set i j { v with x := x }
  | .error f => ⟨a, some f⟩

/-- The write `_data(i, j).y = y`. -/
def Array2.setY (a : Array2) (i j : Nat) (y : ℚ) : Run Array2 :=
  match a.get? i j with
  | .ok v => a.set i j { v with y := y }
  | .error f => ⟨a, some f⟩

/-- One visit of the traversal in `setData`; the state is the array and `cnt`. -/
def setDataStep (data : List ℚ) (ij : Nat × Nat) (st : Array2 × Nat) : Run (Array2 × Nat) :=
  match data[st.2]? with
  | none => ⟨st, some Fault.outOfRange⟩
  | some x =>
    let r1 := st.1.setX ij.1 ij.2 x
    let cnt1 := (st.2 + 1) % SIZE_MOD
    match r1.fault with
    | some f => ⟨(r1.state, cnt1), some f⟩
    | none =>
      match data[cnt1]? with
      | none => ⟨(r1.state, cnt1), some Fault.outOfRange⟩
      | some y =>
        let r2 := r1.state.setY ij.1 ij.2 y
        ⟨(r2.state, (cnt1 + 1) % SIZE_MOD), r2.fault⟩

/-- The method `setData(data)`: the length is asserted first, then every data
point is written from the buffer in traversal order. -/
def CollocatedVectorGrid2.setData (g : CollocatedVectorGrid2) (data : List ℚ) :
    Run CollocatedVectorGrid2 :=
  match JET_ASSERT (decide ((2 * product g.dataSize kOneSize) % SIZE_MOD = data.length)) with
  | .error f => ⟨g, some f⟩
  | .ok _ =>
    let r : Run (Array2 × Nat) := (forEachIndex g._data.size).foldl
      (fun (r : Run (Array2 × Nat)) ij => r.andThen (setDataStep data ij)) ⟨(g._data, 0), none⟩
    ⟨{ g with _data := r.state.1 }, r.fault⟩

/-! ## Lifecycle -/

/-- Modelled from the spec: `Array2::resize(size, initialValue)` (not in the
sources at hand): storage is reallocated to `size`; a cell whose index is valid
in both the old and the new size keeps its value, every other cell of the new
array is `initialValue`. -/
def Array2.resize (a : Array2) (size : Vector2UZ) (initialValue : Vector2D) : Array2 :=
  ⟨size, (forEachIndex size).map (fun ij =>
    if ij.1 < a.size.x ∧ ij.2 < a.size.y then
      a.data.getD (ij.1 + a.size.x * ij.2) initialValue
    else initialValue)⟩

/-- Modelled from the spec: `Array2::swap(other)` (not in the sources at hand):
the two arrays exchange size and storage. -/
def Array2.swap (a other : Array2) : Array2 × Array2 := (other, a)

/-- Modelled from the spec: `Array2::copyFrom(other)` (not in the sources at
hand): the array takes the size of `other` and holds a copy of each of its
elements. -/
def Array2.copyFrom (_a other : Array2) : Array2 := ⟨other.size, other.data.map id⟩

/-- The member `functor()` of the sampler: a function object holding a copy of
the sampler. -/
def LinearArraySampler2.functor (s : LinearArraySampler2) : LinearArraySampler2 := s

/-- The default constructor: `_data` is default-constructed (empty),
`_linearSampler` is built over it with spacing `(1, 1)` and origin `(0, 0)`, and
`_sampler` is default-constructed (empty).  Modelled from the spec for the part
of the base class: a default empty lattice; its spacing and origin are
parameters. -/
def CollocatedVectorGrid2.new (gridSpacing origin : Vector2D) : CollocatedVectorGrid2 where
  resolution := ⟨0, 0⟩
  gridSpacing := gridSpacing
  origin := origin
  _data := Array2.empty
  _linearSampler := LinearArraySampler2.create Array2.empty ⟨1, 1⟩ Vector2D.zero
  _sampler := none

/-- The method `resetSampler()`. -/
def CollocatedVectorGrid2.resetSampler (g : CollocatedVectorGrid2) : CollocatedVectorGrid2 :=
  let linearSampler := LinearArraySampler2.create g._data g.gridSpacing g.dataOrigin
  { g with _linearSampler := linearSampler, _sampler := some linearSampler.functor }

/-- The method `onResize(resolution, gridSpacing, origin, initialValue)`; the
first three arguments are unused. -/
def CollocatedVectorGrid2.onResize (g : CollocatedVectorGrid2) (_resolution : Vector2UZ)
    (_gridSpacing _origin : Vector2D) (initialValue : Vector2D) : CollocatedVectorGrid2 :=
  CollocatedVectorGrid2.resetSampler { g with _data := g._data.resize g.dataSize initialValue }

/-- Modelled from the spec: `resize(resolution, gridSpacing, origin, initialValue)`
of the base class (not in the sources at hand): the geometry is set, then
`onResize` is called. -/
def CollocatedVectorGrid2.resize (g : CollocatedVectorGrid2) (resolution : Vector2UZ)
    (gridSpacing origin : Vector2D) (initialValue : Vector2D) : CollocatedVectorGrid2 :=
  CollocatedVectorGrid2.onResize
    { g with resolution := resolution, gridSpacing := gridSpacing, origin := origin }
    resolution gridSpacing origin initialValue

/-- Modelled from the spec: `swapGrid(other)` of the base class (not in the
sources at hand): the two grids exchange resolution, spacing and origin. -/
def CollocatedVectorGrid2.swapGrid (g other : CollocatedVectorGrid2) :
    CollocatedVectorGrid2 × CollocatedVectorGrid2 :=
  ({ g with resolution := other.resolution, gridSpacing := other.gridSpacing,
            origin := other.origin },
   { other with resolution := g.resolution, gridSpacing := g.gridSpacing, origin := g.origin })

/-- The method `swapCollocatedVectorGrid(other)`; the result is the pair of
`this` and `other` after the call. -/
def CollocatedVectorGrid2.swapCollocatedVectorGrid (g other : CollocatedVectorGrid2) :
    CollocatedVectorGrid2 × CollocatedVectorGrid2 :=
  let s0 := g.swapGrid other
  let d := s0.1._data.swap s0.2._data
  let s1 : CollocatedVectorGrid2 × CollocatedVectorGrid2 :=
    ({ s0.1 with _data := d.1 }, { s0.2 with _data := d.2 })
  let s2 : CollocatedVectorGrid2 × CollocatedVectorGrid2 :=
    ({ s1.1 with _linearSampler := s1.2._linearSampler },
     { s1.2 with _linearSampler := s1.1._linearSampler })
  ({ s2.1 with _sampler := s2.2._sampler }, { s2.2 with _sampler := s2.1._sampler })

/-- Modelled from the spec: `setGrid(other)` of the base class (not in the
sources at hand): resolution, spacing and origin are copied from `other`. -/
def CollocatedVectorGrid2.setGrid (g other : CollocatedVectorGrid2) : CollocatedVectorGrid2 :=
  { g with resolution := other.resolution, gridSpacing := other.gridSpacing,
           origin := other.origin }

/-- The method `setCollocatedVectorGrid(other)`; the result is the pair of `this`
and `other` after the call, `other` being a const reference to another object
(for a call on one and the same object see `Memory.setCollocatedVectorGrid`). -/
def CollocatedVectorGrid2.setCollocatedVectorGrid (g other : CollocatedVectorGrid2) :
    CollocatedVectorGrid2 × CollocatedVectorGrid2 :=
  let g1 := g.setGrid other
  (CollocatedVectorGrid2.resetSampler { g1 with _data := g1._data.copyFrom other._data }, other)

/-- Element write through the mutable `operator()(i, j)`: `grid(i, j) = v`. -/
def CollocatedVectorGrid2.set (g : CollocatedVectorGrid2) (i j : Nat) (v : Vector2D) :
    Run CollocatedVectorGrid2 :=
  let r := g._data.set i j v
  ⟨{ g with _data := r.state }, r.fault⟩

/-! ## Flat layouts used to state the marshalling results -/

/-- The reals of a list of vectors, `x` and `y` interleaved. -/
def interleave (l : List Vector2D) : List ℚ := l.flatMap (fun v => [v.x, v.y])

/-- The index visited at step `k` of the traversal of an array of width `w`. -/
def visit (w k : Nat) : Nat × Nat := (k % w, k / w)

/-- The vector read from positions `2 * k` and `2 * k + 1` of a buffer. -/
def pairAt (buf : List ℚ) (k : Nat) : Vector2D := ⟨buf.getD (2 * k) 0, buf.getD (2 * k + 1) 0⟩

/-! ## A concrete grid -/

/-- A 2x2 grid with spacing `(1, 1)`, origin `(0, 0)` and the values `(1, 0)`,
`(0, 1)`, `(-1, 0)`, `(0, -1)` at the indices `(0, 0)`, `(1, 0)`, `(0, 1)`, `(1, 1)`. -/
def sampleGrid : CollocatedVectorGrid2 where
  resolution := ⟨2, 2⟩
  gridSpacing := ⟨1, 1⟩
  origin := ⟨0, 0⟩
  _data := ⟨⟨2, 2⟩, [⟨1, 0⟩, ⟨0, 1⟩, ⟨-1, 0⟩, ⟨0, -1⟩]⟩
  _linearSampler := ⟨⟨2, 2⟩, ⟨1, 1⟩, ⟨0, 0⟩⟩
  _sampler := some ⟨⟨2, 2⟩, ⟨1, 1⟩, ⟨0, 0⟩⟩

/-- A 3x2 grid with spacing `(2, 3)` in which every element is `(3, -4)`. -/
def uniformGrid : CollocatedVectorGrid2 where
  resolution := ⟨3, 2⟩
  gridSpacing := ⟨2, 3⟩
  origin := ⟨0, 0⟩
  _data := ⟨⟨3, 2⟩, List.replicate 6 ⟨3, -4⟩⟩
  _linearSampler := ⟨⟨3, 2⟩, ⟨2, 3⟩, ⟨0, 0⟩⟩
  _sampler := some ⟨⟨3, 2⟩, ⟨2, 3⟩, ⟨0, 0⟩⟩

/-! ## Evaluation in doubles -/

/-- Rounding of a real to the nearest integer, ties to the even one. -/
def roundHalfEven (r : ℚ) : Int :=
  if r - Int.floor r < 1 / 2 then Int.floor r
  else if 1 / 2 < r - Int.floor r then Int.floor r + 1
  else if Int.floor r % 2 = 0 then Int.floor r else Int.floor r + 1

/-- The `double` that an arithmetic operation returns for the exact result `q`:
IEEE 754 binary64, round to nearest, ties to even.  The significand has 53
bits, so the spacing of doubles around `q` is `2 ^ (e - 52)` with `e` the binary
exponent of `q`, not below `-1022`.  Overflow (`2 ^ 1024` and beyond) is not
represented. -/
def roundDouble (q : ℚ) : ℚ :=
  if q = 0 then 0
  else (roundHalfEven (q / (2 : ℚ) ^ (max (Int.log 2 |q|) (-1022) - 52)) : ℚ) *
    (2 : ℚ) ^ (max (Int.log 2 |q|) (-1022) - 52)

/-- The method `dataPosition()` as the machine evaluates it: the conversion of the
index, the product and the sum of line 115 each return the double nearest to
their exact result. -/
def CollocatedVectorGrid2.dataPositionDouble (g : CollocatedVectorGrid2) :
    Vector2UZ → Vector2D :=
  let dataOrigin_ := g.dataOrigin
  let gridSpacing_ := g.gridSpacing
  fun idx =>
    ⟨roundDouble (dataOrigin_.x + roundDouble (gridSpacing_.x * roundDouble (idx.x : ℚ))),
     roundDouble (dataOrigin_.y + roundDouble (gridSpacing_.y * roundDouble (idx.y : ℚ)))⟩

/-- A 2x1 grid far from zero: spacing `(1, 1)`, origin `(10^16, 0)`, the values
`(1, 0)` at `(0, 0)` and `(2, 0)` at `(1, 0)`; its sampler is current. -/
def farGrid : CollocatedVectorGrid2 where
  resolution := ⟨2, 1⟩
  gridSpacing := ⟨1, 1⟩
  origin := ⟨10 ^ 16, 0⟩
  _data := ⟨⟨2, 1⟩, [⟨1, 0⟩, ⟨2, 0⟩]⟩
  _linearSampler := ⟨⟨2, 1⟩, ⟨1, 1⟩, ⟨10 ^ 16, 0⟩⟩
  _sampler := some ⟨⟨2, 1⟩, ⟨1, 1⟩, ⟨10 ^ 16, 0⟩⟩

/-! ## Grid objects in memory -/

/-- A grid object as it lies in memory: the members of the class, the backing
array being given by its size and by the address of the block of storage that it
owns. -/
structure GridObject where
  resolution : Vector2UZ
  gridSpacing : Vector2D
  origin : Vector2D
  dataSize : Vector2UZ
  dataAddr : Nat
  _linearSampler : LinearArraySampler2
  _sampler : Option LinearArraySampler2

/-- Memory: the grid objects, by identity, and the blocks of element storage, by
address.  Two objects whose arrays had the same address would share their
elements. -/
structure Memory where
  object : Nat → GridObject
  block : Nat → List Vector2D

/-- The state of the grid object `id`, its elements read from the block of its
backing array. -/
def Memory.load (m : Memory) (id : Nat) : CollocatedVectorGrid2 where
  resolution := (m.object id).resolution
  gridSpacing := (m.object id).gridSpacing
  origin := (m.object id).origin
  _data := ⟨(m.object id).dataSize, m.block (m.object id).dataAddr⟩
  _linearSampler := (m.object id)._linearSampler
  _sampler := (m.object id)._sampler

/-- The grid object `id` takes the state `g`: its members are overwritten and the
elements of `g` are written into the block that the backing array of `id` owns. -/
def Memory.store (m : Memory) (id : Nat) (g : CollocatedVectorGrid2) : Memory where
  object := Function.update m.object id
    { resolution := g.resolution, gridSpacing := g.gridSpacing, origin := g.origin,
      dataSize := g._data.size, dataAddr := (m.object id).dataAddr,
      _linearSampler := g._linearSampler, _sampler := g._sampler }
  block := Function.update m.block (m.object id).dataAddr g._data.data

/-- The call `this.setCollocatedVectorGrid(other)` on two grid objects in memory,
which may be the same object.  Modelled from the spec for `Array2::copyFrom` (not
in the sources at hand): the elements of `other` are duplicated into the storage
that `this` owns; `this` does not take over the block of `other`. -/
def Memory.setCollocatedVectorGrid (m : Memory) (this other : Nat) : Memory :=
  m.store this ((m.load this).setCollocatedVectorGrid (m.load other)).1

/-- An element write `grid(i, j) = v` through the mutable `operator()(i, j)` of
the grid object `id`. -/
def Memory.set (m : Memory) (id i j : Nat) (v : Vector2D) : Memory :=
  m.store id ((m.load id).set i j v).state

/-- A well-formed array: its sizes are `size_t` values, it stores exactly
`size.x * size.y` elements, and the `2 * size.x * size.y` reals it holds can be
counted by a `size_t` (they occupy `16 * size.x * size.y` bytes of a 64-bit
address space). -/
def Array2.Valid (a : Array2) : Prop :=
  a.size.x < SIZE_MOD ∧ a.size.y < SIZE_MOD ∧
  a.data.length = a.size.x * a.size.y ∧ 2 * (a.size.x * a.size.y) < SIZE_MOD

instance (a : Array2) : Decidable a.Valid := by
  unfold Array2.Valid; infer_instance

/-- A well-formed grid: the backing array is well formed and its dimensions are
the lattice's data resolution. -/
def CollocatedVectorGrid2.Valid (g : CollocatedVectorGrid2) : Prop :=
  g._data.Valid ∧ g._data.size = g.dataSize

instance (g : CollocatedVectorGrid2) : Decidable g.Valid := by
  unfold CollocatedVectorGrid2.Valid; infer_instance

/-- The cached sampler is current: `_linearSampler` is the sampler built over the
present backing array with the present grid spacing and data origin, and
`_sampler` holds its function object, as `resetSampler` leaves them. -/
def CollocatedVectorGrid2.SamplerCurrent (g : CollocatedVectorGrid2) : Prop :=
  g._linearSampler = LinearArraySampler2.create g._data g.gridSpacing g.dataOrigin ∧
  g._sampler = some (LinearArraySampler2.create g._data g.gridSpacing g.dataOrigin).functor

instance (g : CollocatedVectorGrid2) : Decidable g.SamplerCurrent := by
  unfold CollocatedVectorGrid2.SamplerCurrent; infer_instance

/-- The grid states that the operations of the file produce, starting from the
default constructor: resize, swap (either grid of the pair), deep copy, `setData`
and element writes; for the last two, the state left whether or not the call
faulted. -/
inductive Reachable : CollocatedVectorGrid2 → Prop where
  | new (gridSpacing origin : Vector2D) : Reachable (CollocatedVectorGrid2.new gridSpacing origin)
  | resize (g : CollocatedVectorGrid2) (resolution : Vector2UZ)
      (gridSpacing origin initialValue : Vector2D) :
      Reachable g → Reachable (g.resize resolution gridSpacing origin initialValue)
  | swapThis (g other : CollocatedVectorGrid2) :
      Reachable g → Reachable other → Reachable (g.swapCollocatedVectorGrid other).1
  | swapOther (g other : CollocatedVectorGrid2) :
      Reachable g → Reachable other → Reachable (g.swapCollocatedVectorGrid other).2
  | setGrid (g other : CollocatedVectorGrid2) :
      Reachable g → Reachable other → Reachable (g.setCollocatedVectorGrid other).1
  | setData (g : CollocatedVectorGrid2) (data : List ℚ) :
      Reachable g → Reachable (g.setData data).state
  | write (g : CollocatedVectorGrid2) (i j : Nat) (v : Vector2D) :
      Reachable g → Reachable (g.set i j v).state

/-- The grid with the same geometry as `g` whose element at every index is the
element of `g` turned by a quarter: `(v.y, -v.x)`. -/
def CollocatedVectorGrid2.rotated (g : CollocatedVectorGrid2) : CollocatedVectorGrid2 :=
  { g with _data := ⟨g._data.size, g._data.data.map (fun v => ⟨v.y, -v.x⟩)⟩ }

/-! ## Element access -/

theorem Array2.offset_lt (w h i j : Nat) (hi : i < w) (hj : j < h) : i + w * j < w * h := by
  have h1 : w * (j + 1) ≤ w * h := Nat.mul_le_mul_left w hj
  have h2 : w * (j + 1) = w * j + w := by ring
  omega

theorem Array2.get?_ok (a : Array2) (hlen : a.data.length = a.size.x * a.size.y) (i j : Nat)
    (hi : i < a.size.x) (hj : j < a.size.y) :
    ∃ v, a.get? i j = .ok v ∧ a.data[i + a.size.x * j]? = some v := by
  have hlt : i + a.size.x * j < a.data.length := by
    rw [hlen]; exact Array2.offset_lt _ _ _ _ hi hj
  refine ⟨a.data[i + a.size.x * j], ?_, ?_⟩
  · simp [Array2.get?, hi, hj, List.getElem?_eq_getElem hlt]
  · simp [List.getElem?_eq_getElem hlt]

/-! ## The point operators -/

/-- Under the precondition the right (or upper) neighbour index does not wrap. -/
theorem succ_mod_eq (i w : Nat) (hi : i < w) (hw : w < SIZE_MOD) :
    (i + 1) % SIZE_MOD = i + 1 := by
  apply Nat.mod_eq_of_lt; omega

/-- The four clamped lookups of the point operators succeed at a valid index. -/
theorem neighbours_ok (g : CollocatedVectorGrid2) (i j : Nat) (hv : g.Valid)
    (hi : i < g._data.size.x) (hj : j < g._data.size.y) :
    ∃ vL vR vD vU : Vector2D,
      g._data.get? (if i > 0 then i - 1 else i) j = .ok vL ∧
      g._data.get? (if i + 1 < g._data.size.x then i + 1 else i) j = .ok vR ∧
      g._data.get? i (if j > 0 then j - 1 else j) = .ok vD ∧
      g._data.get? i (if j + 1 < g._data.size.y then j + 1 else j) = .ok vU := by
  have hlen := hv.1.2.2.1
  have hL : (if i > 0 then i - 1 else i) < g._data.size.x := by split <;> omega
  have hR : (if i + 1 < g._data.size.x then i + 1 else i) < g._data.size.x := by split <;> omega
  have hD : (if j > 0 then j - 1 else j) < g._data.size.y := by split <;> omega
  have hU : (if j + 1 < g._data.size.y then j + 1 else j) < g._data.size.y := by split <;> omega
  obtain ⟨vL, hvL, -⟩ := Array2.get?_ok g._data hlen _ j hL hj
  obtain ⟨vR, hvR, -⟩ := Array2.get?_ok g._data hlen _ j hR hj
  obtain ⟨vD, hvD, -⟩ := Array2.get?_ok g._data hlen i _ hi hD
  obtain ⟨vU, hvU, -⟩ := Array2.get?_ok g._data hlen i _ hi hU
  exact ⟨vL, vR, vD, vU, hvL, hvR, hvD, hvU⟩

/-- The divergence at a valid index, as the source computes it. -/
theorem divergenceAtDataPoint_value (g : CollocatedVectorGrid2) (i j : Nat) (hv : g.Valid)
    (hi : i < g._data.size.x) (hj : j < g._data.size.y) :
    ∃ vL vR vD vU : Vector2D,
      g._data.get? (if i > 0 then i - 1 else i) j = .ok vL ∧
      g._data.get? (if i + 1 < g._data.size.x then i + 1 else i) j = .ok vR ∧
      g._data.get? i (if j > 0 then j - 1 else j) = .ok vD ∧
      g._data.get? i (if j + 1 < g._data.size.y then j + 1 else j) = .ok vU ∧
      g.divergenceAtDataPoint i j =
        .ok (0.5 * (vR.x - vL.x) / g.gridSpacing.x + 0.5 * (vU.y - vD.y) / g.gridSpacing.y) := by
  obtain ⟨vL, vR, vD, vU, hvL, hvR, hvD, hvU⟩ := neighbours_ok g i j hv hi hj
  refine ⟨vL, vR, vD, vU, hvL, hvR, hvD, hvU, ?_⟩
  simp only [CollocatedVectorGrid2.divergenceAtDataPoint, succ_mod_eq i _ hi hv.1.1,
    succ_mod_eq j _ hj hv.1.2.1, hvL, hvR, hvD, hvU, JET_ASSERT, hi, hj, decide_True,
    Bool.and_self, if_true, bind, Except.bind, pure, Except.pure]

/-- The curl at a valid index, as the source computes it. -/
theorem curlAtDataPoint_value (g : CollocatedVectorGrid2) (i j : Nat) (hv : g.Valid)
    (hi : i < g._data.size.x) (hj : j < g._data.size.y) :
    ∃ vL vR vD vU : Vector2D,
      g._data.get? (if i > 0 then i - 1 else i) j = .ok vL ∧
      g._data.get? (if i + 1 < g._data.size.x then i + 1 else i) j = .ok vR ∧
      g._data.get? i (if j > 0 then j - 1 else j) = .ok vD ∧
      g._data.get? i (if j + 1 < g._data.size.y then j + 1 else j) = .ok vU ∧
      g.curlAtDataPoint i j =
        .ok (0.5 * (vR.y - vL.y) / g.gridSpacing.x - 0.5 * (vU.x - vD.x) / g.gridSpacing.y) := by
  obtain ⟨vL, vR, vD, vU, hvL, hvR, hvD, hvU⟩ := neighbours_ok g i j hv hi hj
  refine ⟨vL, vR, vD, vU, hvL, hvR, hvD, hvU, ?_⟩
  simp only [CollocatedVectorGrid2.curlAtDataPoint, succ_mod_eq i _ hi hv.1.1,
    succ_mod_eq j _ hj hv.1.2.1, hvL, hvR, hvD, hvU, JET_ASSERT, hi, hj, decide_True,
    Bool.and_self, if_true, bind, Except.bind, pure, Except.pure]

/-- C1: on a well-formed grid with positive spacing, at every index `(i, j)` with
`i < width` and `j < height`, the four edge-clamped neighbour lookups succeed and
`divergenceAtDataPoint(i, j)` returns
`(data(iR, j).x - data(iL, j).x) / (2 * sx) + (data(i, jU).y - data(i, jD).y) / (2 * sy)`. -/
theorem divergenceAtDataPoint_eq_central_difference (g : CollocatedVectorGrid2) (i j : Nat)
    (hv : g.Valid) (hsx : 0 < g.gridSpacing.x) (hsy : 0 < g.gridSpacing.y)
    (hi : i < g.resolution.x) (hj : j < g.resolution.y) :
    ∃ vL vR vD vU : Vector2D,
      g.get (if i > 0 then i - 1 else i) j = .ok vL ∧
      g.get (if i + 1 < g.resolution.x then i + 1 else i) j = .ok vR ∧
      g.get i (if j > 0 then j - 1 else j) = .ok vD ∧
      g.get i (if j + 1 < g.resolution.y then j + 1 else j) = .ok vU ∧
      g.divergenceAtDataPoint i j =
        .ok ((vR.x - vL.x) / (2 * g.gridSpacing.x) + (vU.y - vD.y) / (2 * g.gridSpacing.y)) := by
  have hres : g.resolution = g._data.size := hv.2.symm
  rw [hres] at hi hj ⊢
  obtain ⟨vL, vR, vD, vU, hvL, hvR, hvD, hvU, hd⟩ := divergenceAtDataPoint_value g i j hv hi hj
  refine ⟨vL, vR, vD, vU, hvL, hvR, hvD, hvU, ?_⟩
  have hne1 : g.gridSpacing.x ≠ 0 := ne_of_gt hsx
  have hne2 : g.gridSpacing.y ≠ 0 := ne_of_gt hsy
  rw [hd]
  congr 1
  field_simp
  ring

theorem divergenceAtDataPoint_eq_central_difference_witness :
    sampleGrid.Valid ∧
    ∃ vL vR vD vU : Vector2D,
      sampleGrid.get (if 1 > 0 then 1 - 1 else 1) 0 = .ok vL ∧
      sampleGrid.get (if 1 + 1 < sampleGrid.resolution.x then 1 + 1 else 1) 0 = .ok vR ∧
      sampleGrid.get 1 (if 0 > 0 then 0 - 1 else 0) = .ok vD ∧
      sampleGrid.get 1 (if 0 + 1 < sampleGrid.resolution.y then 0 + 1 else 0) = .ok vU ∧
      sampleGrid.divergenceAtDataPoint 1 0 =
        .ok ((vR.x - vL.x) / (2 * sampleGrid.gridSpacing.x) +
          (vU.y - vD.y) / (2 * sampleGrid.gridSpacing.y)) :=
  ⟨by decide, divergenceAtDataPoint_eq_central_difference sampleGrid 1 0 (by decide)
    (by decide) (by decide) (by decide) (by decide)⟩

/-- C2: on a well-formed grid with positive spacing, at every index `(i, j)` with
`i < width` and `j < height`, the four edge-clamped neighbour lookups (the same as for
the divergence) succeed and `curlAtDataPoint(i, j)` returns
`(data(iR, j).y - data(iL, j).y) / (2 * sx) - (data(i, jU).x - data(i, jD).x) / (2 * sy)`. -/
theorem curlAtDataPoint_eq_central_difference (g : CollocatedVectorGrid2) (i j : Nat)
    (hv : g.Valid) (hsx : 0 < g.gridSpacing.x) (hsy : 0 < g.gridSpacing.y)
    (hi : i < g.resolution.x) (hj : j < g.resolution.y) :
    ∃ vL vR vD vU : Vector2D,
      g.get (if i > 0 then i - 1 else i) j = .ok vL ∧
      g.get (if i + 1 < g.resolution.x then i + 1 else i) j = .ok vR ∧
      g.get i (if j > 0 then j - 1 else j) = .ok vD ∧
      g.get i (if j + 1 < g.resolution.y then j + 1 else j) = .ok vU ∧
      g.curlAtDataPoint i j =
        .ok ((vR.y - vL.y) / (2 * g.gridSpacing.x) - (vU.x - vD.x) / (2 * g.gridSpacing.y)) := by
  have hres : g.resolution = g._data.size := hv.2.symm
  rw [hres] at hi hj ⊢
  obtain ⟨vL, vR, vD, vU, hvL, hvR, hvD, hvU, hd⟩ := curlAtDataPoint_value g i j hv hi hj
  refine ⟨vL, vR, vD, vU, hvL, hvR, hvD, hvU, ?_⟩
  have hne1 : g.gridSpacing.x ≠ 0 := ne_of_gt hsx
  have hne2 : g.gridSpacing.y ≠ 0 := ne_of_gt hsy
  rw [hd]
  congr 1
  field_simp
  ring

theorem curlAtDataPoint_eq_central_difference_witness :
    sampleGrid.Valid ∧
    ∃ vL vR vD vU : Vector2D,
      sampleGrid.get (if 0 > 0 then 0 - 1 else 0) 1 = .ok vL ∧
      sampleGrid.get (if 0 + 1 < sampleGrid.resolution.x then 0 + 1 else 0) 1 = .ok vR ∧
      sampleGrid.get 0 (if 1 > 0 then 1 - 1 else 1) = .ok vD ∧
      sampleGrid.get 0 (if 1 + 1 < sampleGrid.resolution.y then 1 + 1 else 1) = .ok vU ∧
      sampleGrid.curlAtDataPoint 0 1 =
        .ok ((vR.y - vL.y) / (2 * sampleGrid.gridSpacing.x) -
          (vU.x - vD.x) / (2 * sampleGrid.gridSpacing.y)) :=
  ⟨by decide, curlAtDataPoint_eq_central_difference sampleGrid 0 1 (by decide)
    (by decide) (by decide) (by decide) (by decide)⟩

/-! ## Marshalling: traversal order and the two loops -/

theorem forEachIndex_eq_map_range (w h : Nat) :
    forEachIndex ⟨w, h⟩ = (List.range (w * h)).map (fun k => (k % w, k / w)) := by
  induction h with
  | zero => simp [forEachIndex]
  | succ h ih =>
    have e : w * (h + 1) = w * h + w := by ring
    unfold forEachIndex at ih ⊢
    simp only at ih ⊢
    rw [List.range_succ, List.flatMap_append, ih, e, List.range_add, List.map_append]
    congr 1
    simp only [List.flatMap_singleton, List.map_map]
    apply List.map_congr_left
    intro i hi
    have hi' : i < w := List.mem_range.mp hi
    have hw : 0 < w := by omega
    simp only [Function.comp]
    rw [Nat.mul_add_mod, Nat.mod_eq_of_lt hi', Nat.mul_add_div hw, Nat.div_eq_of_lt hi']
    simp

theorem interleave_length (l : List Vector2D) : (interleave l).length = 2 * l.length := by
  induction l with
  | nil => rfl
  | cons v l ih => simp only [interleave, List.flatMap_cons, List.length_append, List.length_cons] at ih ⊢; simp at ih ⊢; omega

theorem interleave_append (l₁ l₂ : List Vector2D) :
    interleave (l₁ ++ l₂) = interleave l₁ ++ interleave l₂ := by
  simp [interleave, List.flatMap_append]

theorem set_set_append (A : List ℚ) (b0 b1 : ℚ) (B : List ℚ) (x y : ℚ) (n : Nat)
    (hn : n = A.length) :
    ((A ++ b0 :: b1 :: B).set n x).set (n + 1) y = A ++ x :: y :: B := by
  subst hn
  induction A with
  | nil => simp
  | cons a A _ => simp

theorem visit_get? (a : Array2) (hlen : a.data.length = a.size.x * a.size.y) (k : Nat)
    (hk : k < a.size.x * a.size.y) :
    a.get? (visit a.size.x k).1 (visit a.size.x k).2 = .ok (a.data.get ⟨k, hlen ▸ hk⟩) := by
  have hw : 0 < a.size.x := by
    rcases Nat.eq_zero_or_pos a.size.x with h | h
    · rw [h] at hk; simp at hk
    · exact h
  have h1 : k % a.size.x < a.size.x := Nat.mod_lt _ hw
  have h2 : k / a.size.x < a.size.y := by
    rw [Nat.div_lt_iff_lt_mul hw, Nat.mul_comm]; exact hk
  have h3 : k % a.size.x + a.size.x * (k / a.size.x) = k := Nat.mod_add_div k _
  have hk' : k < a.data.length := hlen ▸ hk
  simp [Array2.get?, visit, h1, h2, h3, List.getElem?_eq_getElem hk']

theorem getData_loop (a : Array2) (hlen : a.data.length = a.size.x * a.size.y)
    (hb : 2 * (a.size.x * a.size.y) < SIZE_MOD) (buf : List ℚ)
    (hbuf : buf.length = 2 * (a.size.x * a.size.y)) (m : Nat) (hm : m ≤ a.size.x * a.size.y) :
    ((List.range m).map (visit a.size.x)).foldlM (getDataStep a) (buf, 0) =
      .ok (interleave (a.data.take m) ++ buf.drop (2 * m), 2 * m) := by
  induction m with
  | zero => simp [interleave]; rfl
  | succ m ih =>
    have hm' : m < a.size.x * a.size.y := hm
    have hk' : m < a.data.length := hlen ▸ hm'
    rw [List.range_succ, List.map_append, List.foldlM_append, ih (Nat.le_of_lt hm')]
    have h0 : 2 * m < buf.length := by omega
    have h1 : 2 * m + 1 < buf.length := by omega
    have hd : buf.drop (2 * m) = buf[2 * m] :: buf[2 * m + 1] :: buf.drop (2 * (m + 1)) := by
      rw [List.drop_eq_getElem_cons h0, List.drop_eq_getElem_cons h1]
      rfl
    have hl : (interleave (a.data.take m)).length = 2 * m := by
      rw [interleave_length, List.length_take]; omega
    have hc1 : (2 * m + 1) % SIZE_MOD = 2 * m + 1 := Nat.mod_eq_of_lt (by omega)
    have hc2 : (2 * m + 1 + 1) % SIZE_MOD = 2 * (m + 1) := by
      rw [Nat.mod_eq_of_lt (by omega)]; ring
    have ht : a.data.take (m + 1) = a.data.take m ++ [a.data.get ⟨m, hk'⟩] := by
      rw [List.take_succ, List.getElem?_eq_getElem hk']; rfl
    simp only [List.map_cons, List.map_nil, List.foldlM_cons, List.foldlM_nil, getDataStep,
      visit_get? a hlen m hm', bind, Except.bind, Array1.set, pure, Except.pure]
    simp only [List.length_append, hl, hd, List.length_cons, List.length_set, hc1, hc2]
    rw [if_pos (by omega)]
    simp only [List.length_set, List.length_append, List.length_cons, hl]
    rw [if_pos (by omega)]
    simp only []
    rw [set_set_append _ _ _ _ _ _ _ hl.symm, ht, interleave_append]
    simp [interleave]

theorem forEachIndex_eq_visits (s : Vector2UZ) :
    forEachIndex s = (List.range (s.x * s.y)).map (visit s.x) := by
  cases s with
  | mk w h => exact forEachIndex_eq_map_range w h

theorem interleave_getElem? (l : List Vector2D) (k : Nat) (hk : k < l.length) :
    (interleave l)[2 * k]? = some (l.get ⟨k, hk⟩).x ∧
    (interleave l)[2 * k + 1]? = some (l.get ⟨k, hk⟩).y := by
  induction l generalizing k with
  | nil => simp at hk
  | cons v l ih =>
    cases k with
    | zero => simp [interleave]
    | succ k =>
      have hk' : k < l.length := by simpa using hk
      have e1 : 2 * (k + 1) = (2 * k) + 1 + 1 := by ring
      have e2 : 2 * (k + 1) + 1 = (2 * k + 1) + 1 + 1 := by ring
      obtain ⟨h1, h2⟩ := ih k hk'
      have hc : interleave (v :: l) = v.x :: v.y :: interleave l := by simp [interleave]
      rw [hc, e2, e1]
      simpa using ⟨h1, h2⟩

theorem resize_length (data : List ℚ) (size : Nat) : (Array1.resize data size).length = size := by
  simp [Array1.resize, List.length_take]; omega

theorem getData_eq_interleave (g : CollocatedVectorGrid2) (hv : g.Valid) (buf : List ℚ) :
    g.getData buf = .ok (interleave g._data.data) := by
  obtain ⟨⟨hwx, hwy, hlen, hb⟩, hsz⟩ := hv
  have hsize : ((2 * g.dataSize.x) % SIZE_MOD * g.dataSize.y) % SIZE_MOD =
      2 * (g._data.size.x * g._data.size.y) := by
    rw [← hsz]
    rcases Nat.eq_zero_or_pos g._data.size.y with h0 | hpos
    · simp [h0]
    · have : 2 * g._data.size.x ≤ 2 * (g._data.size.x * g._data.size.y) :=
        Nat.mul_le_mul_left 2 (Nat.le_mul_of_pos_right _ hpos)
      have e : 2 * g._data.size.x % SIZE_MOD = 2 * g._data.size.x := Nat.mod_eq_of_lt (by omega)
      rw [e, Nat.mul_assoc, Nat.mod_eq_of_lt hb]
  unfold CollocatedVectorGrid2.getData
  simp only [hsize]
  rw [forEachIndex_eq_visits, getData_loop g._data hlen hb _ (resize_length _ _) _ (Nat.le_refl _)]
  have hd : List.drop (2 * (g._data.size.x * g._data.size.y))
      (Array1.resize buf (2 * (g._data.size.x * g._data.size.y))) = [] := by
    apply List.drop_of_length_le; rw [resize_length]
  have ht : List.take (g._data.size.x * g._data.size.y) g._data.data = g._data.data := by
    apply List.take_of_length_le; omega
  simp [hd, ht, bind, Except.bind, pure, Except.pure]

theorem visit_lt (w h k : Nat) (hk : k < w * h) :
    (visit w k).1 < w ∧ (visit w k).2 < h ∧ (visit w k).1 + w * (visit w k).2 = k := by
  have hw : 0 < w := by
    rcases Nat.eq_zero_or_pos w with h0 | h0
    · rw [h0] at hk; simp at hk
    · exact h0
  refine ⟨Nat.mod_lt _ hw, ?_, Nat.mod_add_div k _⟩
  show k / w < h
  rw [Nat.div_lt_iff_lt_mul hw, Nat.mul_comm]; exact hk

theorem setX_visit (a : Array2) (hlen : a.data.length = a.size.x * a.size.y) (k : Nat)
    (hk : k < a.size.x * a.size.y) (x : ℚ) :
    a.setX (visit a.size.x k).1 (visit a.size.x k).2 x =
      ⟨{ a with data := a.data.set k { a.data.get ⟨k, hlen ▸ hk⟩ with x := x } }, none⟩ := by
  obtain ⟨h1, h2, h3⟩ := visit_lt _ _ k hk
  have hk' : k < a.data.length := hlen ▸ hk
  simp only [Array2.setX, visit_get? a hlen k hk, Array2.set, h1, h2, h3, hk', and_self, if_true]

theorem setY_visit (a : Array2) (hlen : a.data.length = a.size.x * a.size.y) (k : Nat)
    (hk : k < a.size.x * a.size.y) (y : ℚ) :
    a.setY (visit a.size.x k).1 (visit a.size.x k).2 y =
      ⟨{ a with data := a.data.set k { a.data.get ⟨k, hlen ▸ hk⟩ with y := y } }, none⟩ := by
  obtain ⟨h1, h2, h3⟩ := visit_lt _ _ k hk
  have hk' : k < a.data.length := hlen ▸ hk
  simp only [Array2.setY, visit_get? a hlen k hk, Array2.set, h1, h2, h3, hk', and_self, if_true]

theorem setDataStep_visit (a : Array2) (hlen : a.data.length = a.size.x * a.size.y)
    (hb : 2 * (a.size.x * a.size.y) < SIZE_MOD) (buf : List ℚ)
    (hbuf : buf.length = 2 * (a.size.x * a.size.y)) (k : Nat) (hk : k < a.size.x * a.size.y) :
    setDataStep buf (visit a.size.x k) (a, 2 * k) =
      ⟨(⟨a.size, a.data.set k (pairAt buf k)⟩, 2 * (k + 1)), none⟩ := by
  have h0 : 2 * k < buf.length := by omega
  have h1 : 2 * k + 1 < buf.length := by omega
  have hc1 : (2 * k + 1) % SIZE_MOD = 2 * k + 1 := Nat.mod_eq_of_lt (by omega)
  have hc2 : (2 * k + 1 + 1) % SIZE_MOD = 2 * (k + 1) := by
    rw [Nat.mod_eq_of_lt (by omega)]; ring
  have hk' : k < a.data.length := hlen ▸ hk
  have hlen1 : ∀ v, (Array2.mk a.size (a.data.set k v)).data.length =
      (Array2.mk a.size (a.data.set k v)).size.x * (Array2.mk a.size (a.data.set k v)).size.y := by
    intro v; simp [hlen]
  simp only [setDataStep, List.getElem?_eq_getElem h0, setX_visit a hlen k hk, hc1, hc2,
    List.getElem?_eq_getElem h1]
  rw [setY_visit _ (hlen1 _) k hk]
  simp [pairAt, List.getD_eq_getElem?_getD, List.getElem?_eq_getElem h0,
    List.getElem?_eq_getElem h1, hk']

theorem setData_loop (a : Array2) (hlen : a.data.length = a.size.x * a.size.y)
    (hb : 2 * (a.size.x * a.size.y) < SIZE_MOD) (buf : List ℚ)
    (hbuf : buf.length = 2 * (a.size.x * a.size.y)) (m : Nat) (hm : m ≤ a.size.x * a.size.y) :
    ((List.range m).map (visit a.size.x)).foldl
      (fun (r : Run (Array2 × Nat)) ij => r.andThen (setDataStep buf ij)) ⟨(a, 0), none⟩ =
      ⟨(⟨a.size, (List.range m).map (pairAt buf) ++ a.data.drop m⟩, 2 * m), none⟩ := by
  induction m with
  | zero => simp
  | succ m ih =>
    have hm' : m < a.size.x * a.size.y := hm
    have hk' : m < a.data.length := hlen ▸ hm'
    rw [List.range_succ, List.map_append, List.foldl_append, ih (Nat.le_of_lt hm')]
    have hl : ((List.range m).map (pairAt buf) ++ a.data.drop m).length =
        a.size.x * a.size.y := by
      simp [hlen]; omega
    have hstep := setDataStep_visit ⟨a.size, (List.range m).map (pairAt buf) ++ a.data.drop m⟩
      hl hb buf hbuf m hm'
    simp only [List.map_cons, List.map_nil, List.foldl_cons, List.foldl_nil, Run.andThen]
    simp only at hstep
    rw [hstep]
    have hd : a.data.drop m = a.data[m] :: a.data.drop (m + 1) := List.drop_eq_getElem_cons hk'
    have key : ((List.range m).map (pairAt buf) ++ a.data.drop m).set m (pairAt buf m) =
        (List.range (m + 1)).map (pairAt buf) ++ a.data.drop (m + 1) := by
      rw [List.set_append_right _ _ (by simp)]
      simp only [List.length_map, List.length_range, Nat.sub_self]
      rw [hd, List.set_cons_zero, List.range_succ, List.map_append, List.append_assoc]
      rfl
    rw [key, List.range_succ]

theorem interleave_pairs (buf : List ℚ) (m : Nat) (hm : 2 * m ≤ buf.length) :
    interleave ((List.range m).map (pairAt buf)) = buf.take (2 * m) := by
  induction m with
  | zero => simp [interleave]
  | succ m ih =>
    have h0 : 2 * m < buf.length := by omega
    have h1 : 2 * m + 1 < buf.length := by omega
    have e : 2 * (m + 1) = 2 * m + 1 + 1 := by ring
    have hp : interleave ([m].map (pairAt buf)) = [buf[2 * m], buf[2 * m + 1]] := by
      simp [interleave, pairAt, List.getD_eq_getElem?_getD, List.getElem?_eq_getElem h0,
        List.getElem?_eq_getElem h1]
    rw [List.range_succ, List.map_append, interleave_append, ih (by omega), e, hp,
      List.take_succ, List.take_succ, List.getElem?_eq_getElem h0, List.getElem?_eq_getElem h1]
    simp only [Option.toList, List.append_assoc, List.singleton_append]

theorem product_dataSize (s : Vector2UZ) (hx : s.x < SIZE_MOD)
    (hb : 2 * (s.x * s.y) < SIZE_MOD) :
    (2 * product s kOneSize) % SIZE_MOD = 2 * (s.x * s.y) := by
  have e : product s kOneSize = s.x * s.y := by
    unfold product kOneSize
    rw [Nat.one_mul, Nat.mod_eq_of_lt hx, Nat.mod_eq_of_lt (by omega)]
  rw [e, Nat.mod_eq_of_lt hb]

theorem setData_eq (g : CollocatedVectorGrid2) (hv : g.Valid) (buf : List ℚ)
    (hbuf : buf.length = 2 * (g._data.size.x * g._data.size.y)) :
    g.setData buf =
      ⟨{ g with _data := ⟨g._data.size,
          (List.range (g._data.size.x * g._data.size.y)).map (pairAt buf)⟩ }, none⟩ := by
  obtain ⟨⟨hwx, hwy, hlen, hb⟩, hsz⟩ := hv
  have hp := product_dataSize g._data.size hwx hb
  unfold CollocatedVectorGrid2.setData
  simp only [← hsz, hp, hbuf, JET_ASSERT, decide_True, if_true]
  rw [forEachIndex_eq_visits, setData_loop g._data hlen hb buf hbuf _ (Nat.le_refl _)]
  have hd : List.drop (g._data.size.x * g._data.size.y) g._data.data = [] := by
    apply List.drop_of_length_le; omega
  simp [hd]

/-- C4: on a well-formed grid `getData` returns a buffer of length
`2 * width * height` in which, for the `k`-th index `(i, j)` of the traversal
`forEachDataPointIndex`, position `2 * k` holds `data(i, j).x` and position
`2 * k + 1` holds `data(i, j).y`.  The method is const: the grid is an argument
only, it has no successor state. -/
theorem getData_layout (g : CollocatedVectorGrid2) (hv : g.Valid) (buffer : List ℚ) :
    ∃ out : List ℚ, g.getData buffer = .ok out ∧
      out.length = 2 * g.resolution.x * g.resolution.y ∧
      ∀ (k : Nat) (hk : k < g.forEachDataPointIndex.length),
        ∃ v : Vector2D,
          g.get (g.forEachDataPointIndex.get ⟨k, hk⟩).1 (g.forEachDataPointIndex.get ⟨k, hk⟩).2
            = .ok v ∧
          out[2 * k]? = some v.x ∧ out[2 * k + 1]? = some v.y := by
  have hlen := hv.1.2.2.1
  have hres : g.resolution = g._data.size := hv.2.symm
  refine ⟨interleave g._data.data, getData_eq_interleave g hv buffer, ?_, ?_⟩
  · rw [interleave_length, hlen, hres]; ring
  · intro k hk
    have hk0 : k < g._data.size.x * g._data.size.y := by
      simpa [CollocatedVectorGrid2.forEachDataPointIndex, forEachIndex_eq_visits] using hk
    have hk1 : k < g._data.data.length := hlen ▸ hk0
    have hidx : g.forEachDataPointIndex.get ⟨k, hk⟩ = visit g._data.size.x k := by
      simp [CollocatedVectorGrid2.forEachDataPointIndex, forEachIndex_eq_visits]
    refine ⟨g._data.data.get ⟨k, hk1⟩, ?_, (interleave_getElem? _ k hk1).1,
      (interleave_getElem? _ k hk1).2⟩
    rw [hidx]
    exact visit_get? g._data hlen k hk0

theorem getData_layout_witness :
    sampleGrid.Valid ∧
    ∃ out : List ℚ, sampleGrid.getData [7] = .ok out ∧
      out.length = 2 * sampleGrid.resolution.x * sampleGrid.resolution.y ∧
      ∀ (k : Nat) (hk : k < sampleGrid.forEachDataPointIndex.length),
        ∃ v : Vector2D,
          sampleGrid.get (sampleGrid.forEachDataPointIndex.get ⟨k, hk⟩).1
            (sampleGrid.forEachDataPointIndex.get ⟨k, hk⟩).2 = .ok v ∧
          out[2 * k]? = some v.x ∧ out[2 * k + 1]? = some v.y :=
  ⟨by decide, getData_layout sampleGrid (by decide) [7]⟩

/-- C3: round trip.  On a well-formed grid, for a buffer of length exactly
`2 * width * height`, `setData(buffer)` completes without a fault, and `getData`
on the grid it leaves returns `buffer` itself, whatever the second buffer held. -/
theorem setData_getData_round_trip (g : CollocatedVectorGrid2) (hv : g.Valid)
    (buffer buffer2 : List ℚ) (hlen : buffer.length = 2 * g.resolution.x * g.resolution.y) :
    (g.setData buffer).fault = none ∧ (g.setData buffer).state.getData buffer2 = .ok buffer := by
  have hres : g.resolution = g._data.size := hv.2.symm
  have hbuf : buffer.length = 2 * (g._data.size.x * g._data.size.y) := by
    rw [hlen, hres]; ring
  rw [setData_eq g hv buffer hbuf]
  refine ⟨rfl, ?_⟩
  obtain ⟨⟨hwx, hwy, hl, hb⟩, hsz⟩ := hv
  have hv' : CollocatedVectorGrid2.Valid { g with _data := ⟨g._data.size,
      (List.range (g._data.size.x * g._data.size.y)).map (pairAt buffer)⟩ } :=
    ⟨⟨hwx, hwy, by simp, hb⟩, hsz⟩
  rw [getData_eq_interleave _ hv' buffer2]
  simp only
  rw [interleave_pairs buffer _ (by omega), List.take_of_length_le (by omega)]

theorem setData_getData_round_trip_witness :
    sampleGrid.Valid ∧
    (sampleGrid.setData [1, 2, 3, 4, 5, 6, 7, 8]).fault = none ∧
    (sampleGrid.setData [1, 2, 3, 4, 5, 6, 7, 8]).state.getData [9, 9] =
      .ok [1, 2, 3, 4, 5, 6, 7, 8] :=
  ⟨by decide, setData_getData_round_trip sampleGrid (by decide) [1, 2, 3, 4, 5, 6, 7, 8] [9, 9]
    (by decide)⟩

/-- C5: on a well-formed grid, for a buffer whose length differs from
`2 * width * height`, `setData` stops at the assertion on the length, before the
traversal: the fault is the assertion and the grid it leaves is the grid it was
given, no element written. -/
theorem setData_length_mismatch (g : CollocatedVectorGrid2) (hv : g.Valid) (buffer : List ℚ)
    (hlen : buffer.length ≠ 2 * g.resolution.x * g.resolution.y) :
    g.setData buffer = ⟨g, some Fault.assertion⟩ := by
  obtain ⟨⟨hwx, hwy, hl, hb⟩, hsz⟩ := hv
  have hp := product_dataSize g._data.size hwx hb
  have hne : ¬ (2 * (g._data.size.x * g._data.size.y) = buffer.length) := by
    intro h
    apply hlen
    have hres : g.resolution = g._data.size := hsz.symm
    rw [hres, ← h]; ring
  unfold CollocatedVectorGrid2.setData
  simp only [← hsz, hp, hne, JET_ASSERT, decide_False, if_false, Bool.false_eq_true]

theorem setData_length_mismatch_witness :
    sampleGrid.Valid ∧ [1, 2, 3].length ≠ 2 * sampleGrid.resolution.x * sampleGrid.resolution.y ∧
    sampleGrid.setData [1, 2, 3] = ⟨sampleGrid, some Fault.assertion⟩ :=
  ⟨by decide, by decide, setData_length_mismatch sampleGrid (by decide) [1, 2, 3] (by decide)⟩

/-! ## Resize -/

theorem visit_offset (w i j : Nat) (hi : i < w) : visit w (i + w * j) = (i, j) := by
  have hw : 0 < w := by omega
  simp only [visit, Nat.add_mul_mod_self_left, Nat.mod_eq_of_lt hi, Nat.add_mul_div_left _ _ hw,
    Nat.div_eq_of_lt hi, Nat.zero_add]

theorem Array2.resize_get? (a : Array2) (size : Vector2UZ) (initialValue : Vector2D) (i j : Nat)
    (hi : i < size.x) (hj : j < size.y) :
    (a.resize size initialValue).get? i j =
      .ok (if i < a.size.x ∧ j < a.size.y then a.data.getD (i + a.size.x * j) initialValue
        else initialValue) := by
  have hk : i + size.x * j < size.x * size.y := Array2.offset_lt _ _ _ _ hi hj
  simp only [Array2.get?, Array2.resize, hi, hj, and_self, if_true, forEachIndex_eq_visits,
    List.map_map]
  rw [List.getElem?_map, List.getElem?_range hk]
  simp only [Option.map_some', Function.comp, visit_offset _ _ _ hi]

/-- C6: resizing a well-formed grid to the resolution `(w', h')` with initial
value `v0` leaves, at every index `(i, j)` of the new grid, the value the grid held
there when `i < min w w'` and `j < min h h'`, and `v0` at every other index. -/
theorem resize_preserves_overlap (g : CollocatedVectorGrid2) (hv : g.Valid)
    (resolution : Vector2UZ) (gridSpacing origin v0 : Vector2D) (i j : Nat)
    (hi : i < resolution.x) (hj : j < resolution.y) :
    (i < min g.resolution.x resolution.x ∧ j < min g.resolution.y resolution.y →
      ∃ v : Vector2D, g.get i j = .ok v ∧
        (g.resize resolution gridSpacing origin v0).get i j = .ok v) ∧
    (¬ (i < min g.resolution.x resolution.x ∧ j < min g.resolution.y resolution.y) →
      (g.resize resolution gridSpacing origin v0).get i j = .ok v0) := by
  have hlen := hv.1.2.2.1
  have hres : g.resolution = g._data.size := hv.2.symm
  have hnew : (g.resize resolution gridSpacing origin v0).get i j =
      .ok (if i < g._data.size.x ∧ j < g._data.size.y then
        g._data.data.getD (i + g._data.size.x * j) v0 else v0) :=
    Array2.resize_get? g._data resolution v0 i j hi hj
  rw [hres]
  constructor
  · rintro ⟨h1, h2⟩
    have hi' : i < g._data.size.x := lt_of_lt_of_le h1 (min_le_left _ _)
    have hj' : j < g._data.size.y := lt_of_lt_of_le h2 (min_le_left _ _)
    obtain ⟨v, hv1, hv2⟩ := Array2.get?_ok g._data hlen i j hi' hj'
    refine ⟨v, hv1, ?_⟩
    rw [hnew, if_pos ⟨hi', hj'⟩, List.getD_eq_getElem?_getD, hv2]
    rfl
  · intro hn
    have hn' : ¬ (i < g._data.size.x ∧ j < g._data.size.y) := by
      rintro ⟨h1, h2⟩
      exact hn ⟨lt_min h1 hi, lt_min h2 hj⟩
    rw [hnew, if_neg hn']

theorem resize_preserves_overlap_witness :
    sampleGrid.Valid ∧
    (1 < min sampleGrid.resolution.x 3 ∧ 0 < min sampleGrid.resolution.y 1 →
      ∃ v : Vector2D, sampleGrid.get 1 0 = .ok v ∧
        (sampleGrid.resize ⟨3, 1⟩ ⟨1, 1⟩ ⟨0, 0⟩ ⟨5, 5⟩).get 1 0 = .ok v) ∧
    (¬ (1 < min sampleGrid.resolution.x 3 ∧ 0 < min sampleGrid.resolution.y 1) →
      (sampleGrid.resize ⟨3, 1⟩ ⟨1, 1⟩ ⟨0, 0⟩ ⟨5, 5⟩).get 1 0 = .ok ⟨5, 5⟩) :=
  ⟨by decide, resize_preserves_overlap sampleGrid (by decide) ⟨3, 1⟩ ⟨1, 1⟩ ⟨0, 0⟩ ⟨5, 5⟩ 1 0
    (by decide) (by decide)⟩

/-! ## The sampler kernel -/

theorem getBarycentric_range (x : ℚ) (n : Int) (hn : 1 ≤ n) :
    0 ≤ (getBarycentric x 0 (n - 1)).1 ∧ (getBarycentric x 0 (n - 1)).1 < n := by
  unfold getBarycentric
  simp only
  split_ifs <;> simp only <;> omega

theorem toSize_lt (z : Int) (n : Nat) (h0 : 0 ≤ z) (h1 : z < (n : Int)) (hn : n < SIZE_MOD) :
    toSize z < n := by
  have hz : z < (SIZE_MOD : Int) := by omega
  unfold toSize
  rw [Int.emod_eq_of_lt h0 hz]
  omega

theorem kernel_indices_lt (s : LinearArraySampler2) (x : Vector2D)
    (hx : 0 < s.viewSize.x) (hy : 0 < s.viewSize.y)
    (hxm : s.viewSize.x < SIZE_MOD) (hym : s.viewSize.y < SIZE_MOD) (k : Fin 4) :
    ((s.getCoordinatesAndWeights x).1 k).x < s.viewSize.x ∧
    ((s.getCoordinatesAndWeights x).1 k).y < s.viewSize.y := by
  have hx1 : (1 : Int) ≤ (s.viewSize.x : Int) := by omega
  have hy1 : (1 : Int) ≤ (s.viewSize.y : Int) := by omega
  obtain ⟨a0, a1⟩ := getBarycentric_range ((x.x - s.gridOrigin.x) / s.gridSpacing.x) _ hx1
  obtain ⟨b0, b1⟩ := getBarycentric_range ((x.y - s.gridOrigin.y) / s.gridSpacing.y) _ hy1
  have hi := toSize_lt _ _ a0 a1 hxm
  have hj := toSize_lt _ _ b0 b1 hym
  have hi1 := toSize_lt (min ((getBarycentric ((x.x - s.gridOrigin.x) / s.gridSpacing.x) 0
    ((s.viewSize.x : Int) - 1)).1 + 1) ((s.viewSize.x : Int) - 1)) _
    (le_min (by omega) (by omega)) (lt_of_le_of_lt (min_le_right _ _) (by omega)) hxm
  have hj1 := toSize_lt (min ((getBarycentric ((x.y - s.gridOrigin.y) / s.gridSpacing.y) 0
    ((s.viewSize.y : Int) - 1)).1 + 1) ((s.viewSize.y : Int) - 1)) _
    (le_min (by omega) (by omega)) (lt_of_le_of_lt (min_le_right _ _) (by omega)) hym
  unfold LinearArraySampler2.getCoordinatesAndWeights
  fin_cases k
  · exact ⟨hi, hj⟩
  · exact ⟨hi1, hj⟩
  · exact ⟨hi, hj1⟩
  · exact ⟨hi1, hj1⟩

/-! ## Swap and copy -/

/-- C7: after `A.swapCollocatedVectorGrid(B)`, `A` has the resolution, spacing,
origin, backing array (hence every element value) and sampler state that `B` had
before the call, and `B` has those that `A` had. -/
theorem swapCollocatedVectorGrid_exchanges_state (a b : CollocatedVectorGrid2) :
    ((a.swapCollocatedVectorGrid b).1.resolution = b.resolution ∧
      (a.swapCollocatedVectorGrid b).1.gridSpacing = b.gridSpacing ∧
      (a.swapCollocatedVectorGrid b).1.origin = b.origin ∧
      (a.swapCollocatedVectorGrid b).1._data = b._data ∧
      (∀ i j, (a.swapCollocatedVectorGrid b).1.get i j = b.get i j) ∧
      (a.swapCollocatedVectorGrid b).1._linearSampler = b._linearSampler ∧
      (a.swapCollocatedVectorGrid b).1._sampler = b._sampler) ∧
    ((a.swapCollocatedVectorGrid b).2.resolution = a.resolution ∧
      (a.swapCollocatedVectorGrid b).2.gridSpacing = a.gridSpacing ∧
      (a.swapCollocatedVectorGrid b).2.origin = a.origin ∧
      (a.swapCollocatedVectorGrid b).2._data = a._data ∧
      (∀ i j, (a.swapCollocatedVectorGrid b).2.get i j = a.get i j) ∧
      (a.swapCollocatedVectorGrid b).2._linearSampler = a._linearSampler ∧
      (a.swapCollocatedVectorGrid b).2._sampler = a._sampler) := by
  refine ⟨⟨rfl, rfl, rfl, rfl, ?_, rfl, rfl⟩, ⟨rfl, rfl, rfl, rfl, ?_, rfl, rfl⟩⟩
  · intro i j; rfl
  · intro i j; rfl

/-- C8: swap is self-inverse: swapping `A` and `B` twice in a row gives back `A`
and `B`, every component of the state included. -/
theorem swapCollocatedVectorGrid_twice (a b : CollocatedVectorGrid2) :
    (a.swapCollocatedVectorGrid b).1.swapCollocatedVectorGrid (a.swapCollocatedVectorGrid b).2
      = (a, b) := by
  cases a
  cases b
  rfl

/-- C10: on a well-formed, non-empty grid whose sampler views the backing array,
for every position `p` the point operators succeed at the four indices that
`getCoordinatesAndWeights` returns for `p`, `divergence(p)` is the sum over
`k = 0..3` of `weights[k] * divergenceAtDataPoint(indices[k])` and `curl(p)` the
sum of `weights[k] * curlAtDataPoint(indices[k])`. -/
theorem divergence_curl_interpolate_point_operators (g : CollocatedVectorGrid2) (hv : g.Valid)
    (hview : g._linearSampler.viewSize = g._data.size)
    (hne : 0 < g.resolution.x ∧ 0 < g.resolution.y) (p : Vector2D) :
    ∃ d c : Fin 4 → ℚ,
      (∀ k, g.divergenceAtDataPoint ((g._linearSampler.getCoordinatesAndWeights p).1 k).x
        ((g._linearSampler.getCoordinatesAndWeights p).1 k).y = .ok (d k)) ∧
      (∀ k, g.curlAtDataPoint ((g._linearSampler.getCoordinatesAndWeights p).1 k).x
        ((g._linearSampler.getCoordinatesAndWeights p).1 k).y = .ok (c k)) ∧
      g.divergence p = .ok (∑ k : Fin 4, (g._linearSampler.getCoordinatesAndWeights p).2 k * d k) ∧
      g.curl p = .ok (∑ k : Fin 4, (g._linearSampler.getCoordinatesAndWeights p).2 k * c k) := by
  have hres : g.resolution = g._data.size := hv.2.symm
  rw [hres] at hne
  have hidx : ∀ k, ((g._linearSampler.getCoordinatesAndWeights p).1 k).x < g._data.size.x ∧
      ((g._linearSampler.getCoordinatesAndWeights p).1 k).y < g._data.size.y := by
    intro k
    have h := kernel_indices_lt g._linearSampler p (hview ▸ hne.1) (hview ▸ hne.2)
      (hview ▸ hv.1.1) (hview ▸ hv.1.2.1) k
    rw [hview] at h
    exact h
  have hdiv : ∀ k, ∃ q, g.divergenceAtDataPoint
      ((g._linearSampler.getCoordinatesAndWeights p).1 k).x
      ((g._linearSampler.getCoordinatesAndWeights p).1 k).y = .ok q := by
    intro k
    obtain ⟨_, _, _, _, -, -, -, -, h⟩ :=
      divergenceAtDataPoint_value g _ _ hv (hidx k).1 (hidx k).2
    exact ⟨_, h⟩
  have hcurl : ∀ k, ∃ q, g.curlAtDataPoint
      ((g._linearSampler.getCoordinatesAndWeights p).1 k).x
      ((g._linearSampler.getCoordinatesAndWeights p).1 k).y = .ok q := by
    intro k
    obtain ⟨_, _, _, _, -, -, -, -, h⟩ :=
      curlAtDataPoint_value g _ _ hv (hidx k).1 (hidx k).2
    exact ⟨_, h⟩
  choose d hd using hdiv
  choose c hc using hcurl
  refine ⟨d, c, hd, hc, ?_, ?_⟩
  · simp only [CollocatedVectorGrid2.divergence, List.foldlM_cons, List.foldlM_nil, hd, bind,
      Except.bind, pure, Except.pure, Fin.sum_univ_four]
    congr 1
    ring
  · simp only [CollocatedVectorGrid2.curl, List.foldlM_cons, List.foldlM_nil, hc, bind,
      Except.bind, pure, Except.pure, Fin.sum_univ_four]
    congr 1
    ring

theorem divergence_curl_interpolate_point_operators_witness :
    sampleGrid.Valid ∧
    ∃ d c : Fin 4 → ℚ,
      (∀ k, sampleGrid.divergenceAtDataPoint
        ((sampleGrid._linearSampler.getCoordinatesAndWeights ⟨1 / 4, 1 / 2⟩).1 k).x
        ((sampleGrid._linearSampler.getCoordinatesAndWeights ⟨1 / 4, 1 / 2⟩).1 k).y = .ok (d k)) ∧
      (∀ k, sampleGrid.curlAtDataPoint
        ((sampleGrid._linearSampler.getCoordinatesAndWeights ⟨1 / 4, 1 / 2⟩).1 k).x
        ((sampleGrid._linearSampler.getCoordinatesAndWeights ⟨1 / 4, 1 / 2⟩).1 k).y = .ok (c k)) ∧
      sampleGrid.divergence ⟨1 / 4, 1 / 2⟩ =
        .ok (∑ k : Fin 4,
          (sampleGrid._linearSampler.getCoordinatesAndWeights ⟨1 / 4, 1 / 2⟩).2 k * d k) ∧
      sampleGrid.curl ⟨1 / 4, 1 / 2⟩ =
        .ok (∑ k : Fin 4,
          (sampleGrid._linearSampler.getCoordinatesAndWeights ⟨1 / 4, 1 / 2⟩).2 k * c k) :=
  ⟨by decide, divergence_curl_interpolate_point_operators sampleGrid (by decide) (by decide)
    (by decide) ⟨1 / 4, 1 / 2⟩⟩

/-! ## Data positions -/

/-- C12: the function returned by `dataPosition()` maps the index `(i, j)` to
`dataOrigin + (i * spacingX, j * spacingY)`, with the data origin and the grid
spacing of the grid on which `dataPosition()` was called. -/
theorem dataPosition_affine (g : CollocatedVectorGrid2) (i j : Nat) :
    g.dataPosition ⟨i, j⟩ =
      ⟨g.dataOrigin.x + (i : ℚ) * g.gridSpacing.x, g.dataOrigin.y + (j : ℚ) * g.gridSpacing.y⟩ := by
  simp only [CollocatedVectorGrid2.dataPosition, Vector2D.add, elemMul, Vector2UZ.castToDouble,
    mul_comm]

/-! ## Golden value and edge behaviour of the point operators -/

/-- C13: on the 2x2 grid with spacing `(1, 1)`, origin `(0, 0)` and the values
`(1, 0)`, `(0, 1)`, `(-1, 0)`, `(0, -1)` at `(0, 0)`, `(1, 0)`, `(0, 1)`, `(1, 1)`,
`divergenceAtDataPoint(0, 0)` is `0.5 * (0 - 1) / 1 + 0.5 * (0 - 0) / 1`, that is `-1/2`. -/
theorem divergenceAtDataPoint_golden :
    sampleGrid.divergenceAtDataPoint 0 0 = .ok (0.5 * (0 - 1) / 1 + 0.5 * (0 - 0) / 1) ∧
    (0.5 * (0 - 1) / 1 + 0.5 * (0 - 0) / 1 : ℚ) = -1 / 2 := by
  constructor
  · simp [CollocatedVectorGrid2.divergenceAtDataPoint, sampleGrid, JET_ASSERT, Array2.get?,
      SIZE_MOD, bind, Except.bind, pure, Except.pure]
  · norm_num

/-- C14: on a well-formed grid, under the precondition `i < width` and
`j < height`, each of the four neighbour indices the point operators compute
(with the `size_t` arithmetic of the source) is within one of the centre index
without wrapping and inside `[0, width) x [0, height)`, each of the four lookups
succeeds, and neither `divergenceAtDataPoint` nor `curlAtDataPoint` faults. -/
theorem neighbour_lookups_in_bounds (g : CollocatedVectorGrid2) (hv : g.Valid) (i j : Nat)
    (hi : i < g.resolution.x) (hj : j < g.resolution.y) :
    ((if i > 0 then i - 1 else i) + 1 ≥ i ∧ (if i > 0 then i - 1 else i) < g._data.size.x ∧
      ∃ v, g._data.get? (if i > 0 then i - 1 else i) j = .ok v) ∧
    ((if (i + 1) % SIZE_MOD < g._data.size.x then (i + 1) % SIZE_MOD else i) ≤ i + 1 ∧
      (if (i + 1) % SIZE_MOD < g._data.size.x then (i + 1) % SIZE_MOD else i) < g._data.size.x ∧
      ∃ v, g._data.get?
        (if (i + 1) % SIZE_MOD < g._data.size.x then (i + 1) % SIZE_MOD else i) j = .ok v) ∧
    ((if j > 0 then j - 1 else j) + 1 ≥ j ∧ (if j > 0 then j - 1 else j) < g._data.size.y ∧
      ∃ v, g._data.get? i (if j > 0 then j - 1 else j) = .ok v) ∧
    ((if (j + 1) % SIZE_MOD < g._data.size.y then (j + 1) % SIZE_MOD else j) ≤ j + 1 ∧
      (if (j + 1) % SIZE_MOD < g._data.size.y then (j + 1) % SIZE_MOD else j) < g._data.size.y ∧
      ∃ v, g._data.get? i
        (if (j + 1) % SIZE_MOD < g._data.size.y then (j + 1) % SIZE_MOD else j) = .ok v) ∧
    (∃ d, g.divergenceAtDataPoint i j = .ok d) ∧ (∃ c, g.curlAtDataPoint i j = .ok c) := by
  have hres : g.resolution = g._data.size := hv.2.symm
  rw [hres] at hi hj
  obtain ⟨vL, vR, vD, vU, hL, hR, hD, hU, hdiv⟩ := divergenceAtDataPoint_value g i j hv hi hj
  obtain ⟨_, _, _, _, -, -, -, -, hcurl⟩ := curlAtDataPoint_value g i j hv hi hj
  rw [succ_mod_eq i _ hi hv.1.1, succ_mod_eq j _ hj hv.1.2.1]
  refine ⟨⟨?_, ?_, vL, hL⟩, ⟨?_, ?_, vR, hR⟩, ⟨?_, ?_, vD, hD⟩, ⟨?_, ?_, vU, hU⟩,
    ⟨_, hdiv⟩, ⟨_, hcurl⟩⟩ <;> split <;> omega

theorem neighbour_lookups_in_bounds_witness :
    sampleGrid.Valid ∧
    ((if 1 > 0 then 1 - 1 else 1) + 1 ≥ 1 ∧ (if 1 > 0 then 1 - 1 else 1) < sampleGrid._data.size.x ∧
      ∃ v, sampleGrid._data.get? (if 1 > 0 then 1 - 1 else 1) 0 = .ok v) ∧
    ((if (1 + 1) % SIZE_MOD < sampleGrid._data.size.x then (1 + 1) % SIZE_MOD else 1) ≤ 1 + 1 ∧
      (if (1 + 1) % SIZE_MOD < sampleGrid._data.size.x then (1 + 1) % SIZE_MOD else 1)
        < sampleGrid._data.size.x ∧
      ∃ v, sampleGrid._data.get?
        (if (1 + 1) % SIZE_MOD < sampleGrid._data.size.x then (1 + 1) % SIZE_MOD else 1) 0
          = .ok v) ∧
    ((if 0 > 0 then 0 - 1 else 0) + 1 ≥ 0 ∧ (if 0 > 0 then 0 - 1 else 0) < sampleGrid._data.size.y ∧
      ∃ v, sampleGrid._data.get? 1 (if 0 > 0 then 0 - 1 else 0) = .ok v) ∧
    ((if (0 + 1) % SIZE_MOD < sampleGrid._data.size.y then (0 + 1) % SIZE_MOD else 0) ≤ 0 + 1 ∧
      (if (0 + 1) % SIZE_MOD < sampleGrid._data.size.y then (0 + 1) % SIZE_MOD else 0)
        < sampleGrid._data.size.y ∧
      ∃ v, sampleGrid._data.get? 1
        (if (0 + 1) % SIZE_MOD < sampleGrid._data.size.y then (0 + 1) % SIZE_MOD else 0)
          = .ok v) ∧
    (∃ d, sampleGrid.divergenceAtDataPoint 1 0 = .ok d) ∧
    (∃ c, sampleGrid.curlAtDataPoint 1 0 = .ok c) :=
  ⟨by decide, neighbour_lookups_in_bounds sampleGrid (by decide) 1 0 (by decide) (by decide)⟩

theorem half_div (a s : ℚ) : 0.5 * a / s = a / (2 * s) := by
  rw [div_eq_mul_inv, div_eq_mul_inv, mul_inv]
  norm_num
  ring

/-- C15: on a well-formed grid with at least one column, for every valid `j`:
at `i = 0` the left lookup is the centre cell itself and `divergenceAtDataPoint(0, j)`
has the x-contribution `(right.x - data(0, j).x) / (2 * sx)`, `right` being the
clamped right neighbour; at `i = width - 1` the right lookup is the centre cell
and the x-contribution is `(data(width - 1, j).x - left.x) / (2 * sx)`, `left`
being the clamped left neighbour. -/
theorem divergenceAtDataPoint_edge_clamp (g : CollocatedVectorGrid2) (hv : g.Valid) (j : Nat)
    (hw : 0 < g.resolution.x) (hj : j < g.resolution.y) :
    (∃ c right vD vU : Vector2D,
      g.get 0 j = .ok c ∧
      g.get (if 0 + 1 < g.resolution.x then 0 + 1 else 0) j = .ok right ∧
      g.get 0 (if j > 0 then j - 1 else j) = .ok vD ∧
      g.get 0 (if j + 1 < g.resolution.y then j + 1 else j) = .ok vU ∧
      g.divergenceAtDataPoint 0 j =
        .ok ((right.x - c.x) / (2 * g.gridSpacing.x) + (vU.y - vD.y) / (2 * g.gridSpacing.y))) ∧
    (∃ c left vD vU : Vector2D,
      g.get (g.resolution.x - 1) j = .ok c ∧
      g.get (if g.resolution.x - 1 > 0 then g.resolution.x - 1 - 1 else g.resolution.x - 1) j
        = .ok left ∧
      g.get (g.resolution.x - 1) (if j > 0 then j - 1 else j) = .ok vD ∧
      g.get (g.resolution.x - 1) (if j + 1 < g.resolution.y then j + 1 else j) = .ok vU ∧
      g.divergenceAtDataPoint (g.resolution.x - 1) j =
        .ok ((c.x - left.x) / (2 * g.gridSpacing.x) + (vU.y - vD.y) / (2 * g.gridSpacing.y))) := by
  have hres : g.resolution = g._data.size := hv.2.symm
  rw [hres] at hw hj ⊢
  constructor
  · obtain ⟨vL, vR, vD, vU, hL, hR, hD, hU, hdiv⟩ := divergenceAtDataPoint_value g 0 j hv hw hj
    refine ⟨vL, vR, vD, vU, ?_, hR, hD, hU, ?_⟩
    · simpa using hL
    · rw [hdiv, half_div, half_div]
  · have hlast : g._data.size.x - 1 < g._data.size.x := by omega
    obtain ⟨vL, vR, vD, vU, hL, hR, hD, hU, hdiv⟩ :=
      divergenceAtDataPoint_value g (g._data.size.x - 1) j hv hlast hj
    have hnot : ¬ (g._data.size.x - 1 + 1 < g._data.size.x) := by omega
    rw [if_neg hnot] at hR
    refine ⟨vR, vL, vD, vU, hR, hL, hD, hU, ?_⟩
    rw [hdiv, half_div, half_div]

theorem divergenceAtDataPoint_edge_clamp_witness :
    sampleGrid.Valid ∧
    (∃ c right vD vU : Vector2D,
      sampleGrid.get 0 1 = .ok c ∧
      sampleGrid.get (if 0 + 1 < sampleGrid.resolution.x then 0 + 1 else 0) 1 = .ok right ∧
      sampleGrid.get 0 (if 1 > 0 then 1 - 1 else 1) = .ok vD ∧
      sampleGrid.get 0 (if 1 + 1 < sampleGrid.resolution.y then 1 + 1 else 1) = .ok vU ∧
      sampleGrid.divergenceAtDataPoint 0 1 =
        .ok ((right.x - c.x) / (2 * sampleGrid.gridSpacing.x) +
          (vU.y - vD.y) / (2 * sampleGrid.gridSpacing.y))) ∧
    (∃ c left vD vU : Vector2D,
      sampleGrid.get (sampleGrid.resolution.x - 1) 1 = .ok c ∧
      sampleGrid.get (if sampleGrid.resolution.x - 1 > 0 then sampleGrid.resolution.x - 1 - 1
        else sampleGrid.resolution.x - 1) 1 = .ok left ∧
      sampleGrid.get (sampleGrid.resolution.x - 1) (if 1 > 0 then 1 - 1 else 1) = .ok vD ∧
      sampleGrid.get (sampleGrid.resolution.x - 1)
        (if 1 + 1 < sampleGrid.resolution.y then 1 + 1 else 1) = .ok vU ∧
      sampleGrid.divergenceAtDataPoint (sampleGrid.resolution.x - 1) 1 =
        .ok ((c.x - left.x) / (2 * sampleGrid.gridSpacing.x) +
          (vU.y - vD.y) / (2 * sampleGrid.gridSpacing.y))) :=
  ⟨by decide, divergenceAtDataPoint_edge_clamp sampleGrid (by decide) 1 (by decide) (by decide)⟩

/-! ## Sampling at a lattice point -/

theorem getBarycentric_lattice (i n : Nat) (hi : i < n) :
    ((getBarycentric (i : ℚ) 0 ((n : Int) - 1)).1 = (i : Int) ∧
      (getBarycentric (i : ℚ) 0 ((n : Int) - 1)).2 = 0) ∨
    (min ((getBarycentric (i : ℚ) 0 ((n : Int) - 1)).1 + 1) ((n : Int) - 1) = (i : Int) ∧
      (getBarycentric (i : ℚ) 0 ((n : Int) - 1)).2 = 1) := by
  unfold getBarycentric
  simp only [Int.floor_natCast]
  split_ifs with h1 h2 h3
  · left; constructor
    · simp only; omega
    · rfl
  · omega
  · right; constructor
    · simp only; omega
    · rfl
  · left; constructor
    · rfl
    · simp

theorem toSize_natCast (i : Nat) (hi : i < SIZE_MOD) : toSize (i : Int) = i := by
  unfold toSize
  rw [Int.emod_eq_of_lt (by omega) (by omega)]
  simp

theorem kernel_at_lattice (s : LinearArraySampler2) (i j : Nat)
    (hsx : 0 < s.gridSpacing.x) (hsy : 0 < s.gridSpacing.y)
    (hi : i < s.viewSize.x) (hj : j < s.viewSize.y)
    (hxm : s.viewSize.x < SIZE_MOD) (hym : s.viewSize.y < SIZE_MOD) :
    ∃ k : Fin 4,
      (s.getCoordinatesAndWeights ⟨s.gridOrigin.x + s.gridSpacing.x * (i : ℚ),
        s.gridOrigin.y + s.gridSpacing.y * (j : ℚ)⟩).2 k = 1 ∧
      (s.getCoordinatesAndWeights ⟨s.gridOrigin.x + s.gridSpacing.x * (i : ℚ),
        s.gridOrigin.y + s.gridSpacing.y * (j : ℚ)⟩).1 k = ⟨i, j⟩ ∧
      ∀ k', k' ≠ k →
        (s.getCoordinatesAndWeights ⟨s.gridOrigin.x + s.gridSpacing.x * (i : ℚ),
          s.gridOrigin.y + s.gridSpacing.y * (j : ℚ)⟩).2 k' = 0 := by
  have hnx : (s.gridOrigin.x + s.gridSpacing.x * (i : ℚ) - s.gridOrigin.x) / s.gridSpacing.x
      = (i : ℚ) := by
    field_simp
  have hny : (s.gridOrigin.y + s.gridSpacing.y * (j : ℚ) - s.gridOrigin.y) / s.gridSpacing.y
      = (j : ℚ) := by
    field_simp
  have hti := toSize_natCast i (by omega)
  have htj := toSize_natCast j (by omega)
  unfold LinearArraySampler2.getCoordinatesAndWeights
  simp only [hnx, hny]
  rcases getBarycentric_lattice i s.viewSize.x hi with ⟨a1, a2⟩ | ⟨a1, a2⟩ <;>
  rcases getBarycentric_lattice j s.viewSize.y hj with ⟨b1, b2⟩ | ⟨b1, b2⟩
  · refine ⟨0, ?_, ?_, ?_⟩
    · simp [a2, b2]
    · simp [a1, b1, hti, htj]
    · intro k' hk'; fin_cases k' <;> simp [a2, b2] at hk' ⊢
  · refine ⟨2, ?_, ?_, ?_⟩
    · simp [a2, b2]
    · simp [a1, b1, hti, htj]
    · intro k' hk'; fin_cases k' <;> simp [a2, b2] at hk' ⊢
  · refine ⟨1, ?_, ?_, ?_⟩
    · simp [a2, b2]
    · simp [a1, b1, hti, htj]
    · intro k' hk'; fin_cases k' <;> simp [a2, b2] at hk' ⊢
  · refine ⟨3, ?_, ?_, ?_⟩
    · simp [a2, b2]
    · simp [a1, b1, hti, htj]
    · intro k' hk'; fin_cases k' <;> simp [a2, b2] at hk' ⊢

theorem Array2.eta (a : Array2) : (⟨a.size, a.data⟩ : Array2) = a := rfl

/-- The sampler's call operator over a well-formed, non-empty array it views: the
four lookups succeed and the result is the weighted sum in the order of the loop. -/
theorem call_value (s : LinearArraySampler2) (a : Array2) (hv : a.Valid)
    (hview : s.viewSize = a.size) (hx : 0 < a.size.x) (hy : 0 < a.size.y) (p : Vector2D) :
    ∃ v : Fin 4 → Vector2D,
      (∀ k, a.get? ((s.getCoordinatesAndWeights p).1 k).x ((s.getCoordinatesAndWeights p).1 k).y
        = .ok (v k)) ∧
      s.call a p = .ok ((((Vector2D.zero.add
        (Vector2D.scale ((s.getCoordinatesAndWeights p).2 0) (v 0))).add
        (Vector2D.scale ((s.getCoordinatesAndWeights p).2 1) (v 1))).add
        (Vector2D.scale ((s.getCoordinatesAndWeights p).2 2) (v 2))).add
        (Vector2D.scale ((s.getCoordinatesAndWeights p).2 3) (v 3))) := by
  have hval : ∀ k, ∃ q, a.get? ((s.getCoordinatesAndWeights p).1 k).x
      ((s.getCoordinatesAndWeights p).1 k).y = .ok q := by
    intro k
    have h := kernel_indices_lt s p (hview ▸ hx) (hview ▸ hy) (hview ▸ hv.1) (hview ▸ hv.2.1) k
    rw [hview] at h
    obtain ⟨q, hq, -⟩ := Array2.get?_ok a hv.2.2.1 _ _ h.1 h.2
    exact ⟨q, hq⟩
  choose v hvk using hval
  refine ⟨v, hvk, ?_⟩
  simp only [LinearArraySampler2.call, hview, Array2.eta, List.foldlM_cons, List.foldlM_nil, hvk,
    bind, Except.bind, pure, Except.pure]

theorem fin4_cases (k : Fin 4) : k = 0 ∨ k = 1 ∨ k = 2 ∨ k = 3 := by
  revert k; decide

/-- A weighted sum whose weights are `1` at `k` and `0` elsewhere is the value at `k`. -/
theorem one_hot_sum (w : Fin 4 → ℚ) (v : Fin 4 → Vector2D) (k : Fin 4) (hk1 : w k = 1)
    (hk0 : ∀ k', k' ≠ k → w k' = 0) :
    (((Vector2D.zero.add (Vector2D.scale (w 0) (v 0))).add (Vector2D.scale (w 1) (v 1))).add
      (Vector2D.scale (w 2) (v 2))).add (Vector2D.scale (w 3) (v 3)) = v k := by
  rcases fin4_cases k with rfl | rfl | rfl | rfl
  · simp [hk1, hk0 1 (by decide), hk0 2 (by decide), hk0 3 (by decide), Vector2D.add,
      Vector2D.scale, Vector2D.zero]
  · simp [hk1, hk0 0 (by decide), hk0 2 (by decide), hk0 3 (by decide), Vector2D.add,
      Vector2D.scale, Vector2D.zero]
  · simp [hk1, hk0 0 (by decide), hk0 1 (by decide), hk0 3 (by decide), Vector2D.add,
      Vector2D.scale, Vector2D.zero]
  · simp [hk1, hk0 0 (by decide), hk0 1 (by decide), hk0 2 (by decide), Vector2D.add,
      Vector2D.scale, Vector2D.zero]

/-- C11, amended: in exact arithmetic, on a well-formed grid with positive
spacing whose cached sampler is current, for every valid index `(i, j)`,
`sample(dataPosition(i, j))` returns the stored value `data(i, j)`: one of the four
kernel points is `(i, j)` with weight `1`, and the other three weights are `0`. -/
theorem sample_at_lattice_point (g : CollocatedVectorGrid2) (hv : g.Valid)
    (hs : g.SamplerCurrent) (hsx : 0 < g.gridSpacing.x) (hsy : 0 < g.gridSpacing.y)
    (i j : Nat) (hi : i < g.resolution.x) (hj : j < g.resolution.y) :
    ∃ v : Vector2D, g.get i j = .ok v ∧ g.sample (g.dataPosition ⟨i, j⟩) = .ok v ∧
      ∃ k : Fin 4,
        (g._linearSampler.getCoordinatesAndWeights (g.dataPosition ⟨i, j⟩)).1 k = ⟨i, j⟩ ∧
        (g._linearSampler.getCoordinatesAndWeights (g.dataPosition ⟨i, j⟩)).2 k = 1 ∧
        ∀ k', k' ≠ k →
          (g._linearSampler.getCoordinatesAndWeights (g.dataPosition ⟨i, j⟩)).2 k' = 0 := by
  have hres : g.resolution = g._data.size := hv.2.symm
  rw [hres] at hi hj
  obtain ⟨hls, hfun⟩ := hs
  obtain ⟨d, hd, -⟩ := Array2.get?_ok g._data hv.1.2.2.1 i j hi hj
  have hpos : g.dataPosition ⟨i, j⟩ =
      ⟨(LinearArraySampler2.create g._data g.gridSpacing g.dataOrigin).gridOrigin.x +
        (LinearArraySampler2.create g._data g.gridSpacing g.dataOrigin).gridSpacing.x * (i : ℚ),
       (LinearArraySampler2.create g._data g.gridSpacing g.dataOrigin).gridOrigin.y +
        (LinearArraySampler2.create g._data g.gridSpacing g.dataOrigin).gridSpacing.y * (j : ℚ)⟩ := rfl
  obtain ⟨k, hk1, hkidx, hk0⟩ := kernel_at_lattice
    (LinearArraySampler2.create g._data g.gridSpacing g.dataOrigin) i j hsx hsy hi hj
    hv.1.1 hv.1.2.1
  rw [← hpos] at hk1 hkidx hk0
  obtain ⟨v, hvk, hcall⟩ := call_value
    (LinearArraySampler2.create g._data g.gridSpacing g.dataOrigin) g._data hv.1 rfl
    (by omega) (by omega) (g.dataPosition ⟨i, j⟩)
  have hvd : v k = d := by
    have h := hvk k
    rw [hkidx] at h
    simp only at h
    rw [hd] at h
    exact (Except.ok.inj h).symm
  refine ⟨d, hd, ?_, k, ?_, ?_, ?_⟩
  · simp only [CollocatedVectorGrid2.sample, hfun, LinearArraySampler2.functor, hcall]
    rw [one_hot_sum _ v k hk1 hk0, hvd]
  · rw [hls]; exact hkidx
  · rw [hls]; exact hk1
  · rw [hls]; exact hk0

theorem sample_at_lattice_point_witness :
    sampleGrid.Valid ∧ sampleGrid.SamplerCurrent ∧
    ∃ v : Vector2D, sampleGrid.get 1 1 = .ok v ∧
      sampleGrid.sample (sampleGrid.dataPosition ⟨1, 1⟩) = .ok v ∧
      ∃ k : Fin 4,
        (sampleGrid._linearSampler.getCoordinatesAndWeights (sampleGrid.dataPosition ⟨1, 1⟩)).1 k
          = ⟨1, 1⟩ ∧
        (sampleGrid._linearSampler.getCoordinatesAndWeights (sampleGrid.dataPosition ⟨1, 1⟩)).2 k
          = 1 ∧
        ∀ k', k' ≠ k →
          (sampleGrid._linearSampler.getCoordinatesAndWeights
            (sampleGrid.dataPosition ⟨1, 1⟩)).2 k' = 0 :=
  ⟨by decide, by decide, sample_at_lattice_point sampleGrid (by decide) (by decide) (by decide)
    (by decide) 1 1 (by decide) (by decide)⟩

/-! ## Lattice points in doubles -/

theorem roundHalfEven_intCast (z : Int) : roundHalfEven (z : ℚ) = z := by
  simp [roundHalfEven]

theorem roundHalfEven_tie_even (z : Int) (hz : z % 2 = 0) : roundHalfEven ((z : ℚ) + 1 / 2) = z := by
  have hf : Int.floor ((z : ℚ) + 1 / 2) = z := by
    rw [Int.floor_eq_iff]
    constructor <;> norm_num
  unfold roundHalfEven
  rw [hf]
  simp [hz]

theorem log2_eq (q : ℚ) (e : Int) (h1 : (2 : ℚ) ^ e ≤ q) (h2 : q < (2 : ℚ) ^ (e + 1)) :
    Int.log 2 |q| = e := by
  have hpos : 0 < q := lt_of_lt_of_le (by positivity) h1
  rw [abs_of_pos hpos]
  apply le_antisymm
  · have := (@Int.lt_zpow_iff_log_lt ℚ _ _ 2 (by norm_num) (e + 1) q hpos).mp (by exact_mod_cast h2)
    omega
  · exact (@Int.zpow_le_iff_le_log ℚ _ _ 2 (by norm_num) e q hpos).mp (by exact_mod_cast h1)

theorem roundDouble_zero : roundDouble 0 = 0 := by simp [roundDouble]

theorem roundDouble_one : roundDouble 1 = 1 := by
  have hl : Int.log 2 |(1 : ℚ)| = 0 := log2_eq 1 0 (by norm_num) (by norm_num)
  have h : (1 : ℚ) / (2 : ℚ) ^ (-52 : Int) = ((2 ^ 52 : Int) : ℚ) := by norm_num
  unfold roundDouble
  rw [if_neg (by norm_num), hl]
  norm_num
  rw [show ((4503599627370496 : ℚ)) = ((4503599627370496 : Int) : ℚ) by norm_num,
    roundHalfEven_intCast]
  norm_num

theorem roundDouble_1e16 : roundDouble (10 ^ 16) = 10 ^ 16 := by
  have hl : Int.log 2 |((10 : ℚ) ^ 16)| = 53 := log2_eq _ 53 (by norm_num) (by norm_num)
  unfold roundDouble
  rw [if_neg (by norm_num), hl]
  norm_num
  rw [show ((5000000000000000 : ℚ)) = ((5000000000000000 : Int) : ℚ) by norm_num,
    roundHalfEven_intCast]
  norm_num

theorem roundDouble_1e16_add_one : roundDouble (10 ^ 16 + 1) = 10 ^ 16 := by
  have hl : Int.log 2 |((10 : ℚ) ^ 16 + 1)| = 53 := log2_eq _ 53 (by norm_num) (by norm_num)
  unfold roundDouble
  rw [if_neg (by norm_num), hl]
  norm_num
  rw [show ((10000000000000001 : ℚ) / 2) = ((5000000000000000 : Int) : ℚ) + 1 / 2 by norm_num,
    roundHalfEven_tie_even _ (by norm_num)]
  norm_num

theorem dataPositionDouble_far_zero : farGrid.dataPositionDouble ⟨0, 0⟩ = ⟨10 ^ 16, 0⟩ := by
  simp [CollocatedVectorGrid2.dataPositionDouble, farGrid, CollocatedVectorGrid2.dataOrigin,
    roundDouble_zero, roundDouble_1e16]

theorem dataPositionDouble_far_one : farGrid.dataPositionDouble ⟨1, 0⟩ = ⟨10 ^ 16, 0⟩ := by
  simp [CollocatedVectorGrid2.dataPositionDouble, farGrid, CollocatedVectorGrid2.dataOrigin,
    roundDouble_zero, roundDouble_one, roundDouble_1e16_add_one]

/-- C11, as stated, fails in doubles: on the 2x1 grid with origin `(10^16, 0)` and
spacing `(1, 1)`, line 115 evaluated in doubles gives the indices `(0, 0)` and
`(1, 0)` the same position, `10^16 + 1` rounding to `10^16`; the two indices hold
different values, so no function of the position, `sample` included, returns the
stored value at both. -/
theorem sample_at_lattice_point_fails_in_doubles :
    (farGrid.Valid ∧ farGrid.SamplerCurrent ∧
      0 < farGrid.gridSpacing.x ∧ 0 < farGrid.gridSpacing.y) ∧
    (farGrid.get 0 0 = .ok ⟨1, 0⟩ ∧ farGrid.get 1 0 = .ok ⟨2, 0⟩) ∧
    (farGrid.dataPositionDouble ⟨0, 0⟩ = ⟨10 ^ 16, 0⟩ ∧
      farGrid.dataPositionDouble ⟨1, 0⟩ = ⟨10 ^ 16, 0⟩) ∧
    ¬ (farGrid.sample (farGrid.dataPositionDouble ⟨0, 0⟩) = farGrid.get 0 0 ∧
      farGrid.sample (farGrid.dataPositionDouble ⟨1, 0⟩) = farGrid.get 1 0) ∧
    ¬ ∃ f : Vector2D → Except Fault Vector2D,
      f (farGrid.dataPositionDouble ⟨0, 0⟩) = farGrid.get 0 0 ∧
      f (farGrid.dataPositionDouble ⟨1, 0⟩) = farGrid.get 1 0 := by
  have h0 : farGrid.get 0 0 = .ok ⟨1, 0⟩ := by
    simp [CollocatedVectorGrid2.get, Array2.get?, farGrid]
  have h1 : farGrid.get 1 0 = .ok ⟨2, 0⟩ := by
    simp [CollocatedVectorGrid2.get, Array2.get?, farGrid]
  have hne : ∀ f : Vector2D → Except Fault Vector2D,
      ¬ (f (farGrid.dataPositionDouble ⟨0, 0⟩) = farGrid.get 0 0 ∧
        f (farGrid.dataPositionDouble ⟨1, 0⟩) = farGrid.get 1 0) := by
    rintro f ⟨e0, e1⟩
    rw [dataPositionDouble_far_zero, h0] at e0
    rw [dataPositionDouble_far_one, h1, e0] at e1
    simp at e1
  refine ⟨⟨by decide, by decide, by decide, by decide⟩, ⟨h0, h1⟩,
    ⟨dataPositionDouble_far_zero, dataPositionDouble_far_one⟩, hne _, ?_⟩
  rintro ⟨f, hf⟩
  exact hne f hf

/-! ## Invariants of the reachable states -/

/-- An element write, faulting or not, leaves the size of the array and the
number of stored elements as they were. -/
theorem Array2.set_shape (a : Array2) (i j : Nat) (v : Vector2D) :
    (a.set i j v).state.size = a.size ∧ (a.set i j v).state.data.length = a.data.length := by
  unfold Array2.set
  split_ifs <;> simp

theorem Array2.setX_shape (a : Array2) (i j : Nat) (x : ℚ) :
    (a.setX i j x).state.size = a.size ∧ (a.setX i j x).state.data.length = a.data.length := by
  unfold Array2.setX
  split
  · exact Array2.set_shape _ _ _ _
  · exact ⟨rfl, rfl⟩

theorem Array2.setY_shape (a : Array2) (i j : Nat) (y : ℚ) :
    (a.setY i j y).state.size = a.size ∧ (a.setY i j y).state.data.length = a.data.length := by
  unfold Array2.setY
  split
  · exact Array2.set_shape _ _ _ _
  · exact ⟨rfl, rfl⟩

theorem setDataStep_shape (data : List ℚ) (ij : Nat × Nat) (st : Array2 × Nat) :
    (setDataStep data ij st).state.1.size = st.1.size ∧
    (setDataStep data ij st).state.1.data.length = st.1.data.length := by
  unfold setDataStep
  have hx := fun x => Array2.setX_shape st.1 ij.1 ij.2 x
  split
  · exact ⟨rfl, rfl⟩
  · rename_i x _
    simp only
    split
    · exact hx x
    · split
      · exact hx x
      · rename_i y _
        have hy := Array2.setY_shape (st.1.setX ij.1 ij.2 x).state ij.1 ij.2 y
        exact ⟨hy.1.trans (hx x).1, hy.2.trans (hx x).2⟩

theorem setData_fold_shape (data : List ℚ) (l : List (Nat × Nat)) (r : Run (Array2 × Nat)) :
    (l.foldl (fun (r : Run (Array2 × Nat)) ij => r.andThen (setDataStep data ij)) r).state.1.size
      = r.state.1.size ∧
    (l.foldl (fun (r : Run (Array2 × Nat)) ij => r.andThen (setDataStep data ij))
      r).state.1.data.length = r.state.1.data.length := by
  induction l generalizing r with
  | nil => exact ⟨rfl, rfl⟩
  | cons ij l ih =>
    rw [List.foldl_cons]
    obtain ⟨h1, h2⟩ := ih (r.andThen (setDataStep data ij))
    have hstep : (r.andThen (setDataStep data ij)).state.1.size = r.state.1.size ∧
        (r.andThen (setDataStep data ij)).state.1.data.length = r.state.1.data.length := by
      unfold Run.andThen
      split
      · exact setDataStep_shape data ij r.state
      · exact ⟨rfl, rfl⟩
    exact ⟨h1.trans hstep.1, h2.trans hstep.2⟩

theorem setData_shape (g : CollocatedVectorGrid2) (data : List ℚ) :
    (g.setData data).state.resolution = g.resolution ∧
    (g.setData data).state._data.size = g._data.size ∧
    (g.setData data).state._data.data.length = g._data.data.length := by
  unfold CollocatedVectorGrid2.setData
  split
  · exact ⟨rfl, rfl, rfl⟩
  · exact ⟨rfl, (setData_fold_shape data _ _).1, (setData_fold_shape data _ _).2⟩

theorem forEachIndex_length (s : Vector2UZ) : (forEachIndex s).length = s.x * s.y := by
  rw [forEachIndex_eq_visits]; simp

theorem reachable_shape (g : CollocatedVectorGrid2) (h : Reachable g) :
    g._data.size = g.dataSize ∧ g._data.data.length = g._data.size.x * g._data.size.y := by
  induction h with
  | new gridSpacing origin => exact ⟨rfl, rfl⟩
  | resize g resolution gridSpacing origin initialValue _ _ =>
    refine ⟨rfl, ?_⟩
    simp [CollocatedVectorGrid2.resize, CollocatedVectorGrid2.onResize,
      CollocatedVectorGrid2.resetSampler, Array2.resize, forEachIndex_length,
      CollocatedVectorGrid2.dataSize]
  | swapThis g other _ _ _ ih => exact ih
  | swapOther g other _ _ ih _ => exact ih
  | setGrid g other _ _ _ ih =>
    obtain ⟨h1, h2⟩ := ih
    constructor
    · simpa [CollocatedVectorGrid2.setCollocatedVectorGrid, CollocatedVectorGrid2.resetSampler,
        CollocatedVectorGrid2.setGrid, Array2.copyFrom, CollocatedVectorGrid2.dataSize] using h1
    · simpa [CollocatedVectorGrid2.setCollocatedVectorGrid, CollocatedVectorGrid2.resetSampler,
        CollocatedVectorGrid2.setGrid, Array2.copyFrom] using h2
  | setData g data _ ih =>
    obtain ⟨h1, h2⟩ := ih
    obtain ⟨s1, s2, s3⟩ := setData_shape g data
    unfold CollocatedVectorGrid2.dataSize at h1 ⊢
    exact ⟨by rw [s2, s1]; exact h1, by rw [s3, s2]; exact h2⟩
  | write g i j v _ ih =>
    obtain ⟨h1, h2⟩ := ih
    obtain ⟨s1, s2⟩ := Array2.set_shape g._data i j v
    unfold CollocatedVectorGrid2.dataSize at h1 ⊢
    exact ⟨by simpa [CollocatedVectorGrid2.set, s1] using h1,
      by simpa [CollocatedVectorGrid2.set, s1, s2] using h2⟩

/-- C16: in every grid state reachable from the default constructor through
resize, swap, `setCollocatedVectorGrid`, `setData` and element writes, the
dimensions of the backing array are `dataSize()`, the array stores one element
per index, and the length `2 * dataSize().x * dataSize().y` that `getData` and
`setData` use is twice the number of indices traversed over the backing array. -/
theorem size_invariant (g : CollocatedVectorGrid2) (h : Reachable g) :
    g._data.size = g.dataSize ∧
    g._data.data.length = g._data.size.x * g._data.size.y ∧
    2 * g.dataSize.x * g.dataSize.y = 2 * g.forEachDataPointIndex.length := by
  obtain ⟨h1, h2⟩ := reachable_shape g h
  refine ⟨h1, h2, ?_⟩
  rw [CollocatedVectorGrid2.forEachDataPointIndex, forEachIndex_length, ← h1]
  ring

theorem size_invariant_witness :
    Reachable (((CollocatedVectorGrid2.new ⟨1, 1⟩ ⟨0, 0⟩).resize ⟨3, 2⟩ ⟨1, 1⟩ ⟨0, 0⟩
      ⟨5, 5⟩).setData [1, 2, 3]).state ∧
    (((CollocatedVectorGrid2.new ⟨1, 1⟩ ⟨0, 0⟩).resize ⟨3, 2⟩ ⟨1, 1⟩ ⟨0, 0⟩
      ⟨5, 5⟩).setData [1, 2, 3]).state._data.size =
      (((CollocatedVectorGrid2.new ⟨1, 1⟩ ⟨0, 0⟩).resize ⟨3, 2⟩ ⟨1, 1⟩ ⟨0, 0⟩
        ⟨5, 5⟩).setData [1, 2, 3]).state.dataSize ∧
    (((CollocatedVectorGrid2.new ⟨1, 1⟩ ⟨0, 0⟩).resize ⟨3, 2⟩ ⟨1, 1⟩ ⟨0, 0⟩
      ⟨5, 5⟩).setData [1, 2, 3]).state._data.data.length =
      (((CollocatedVectorGrid2.new ⟨1, 1⟩ ⟨0, 0⟩).resize ⟨3, 2⟩ ⟨1, 1⟩ ⟨0, 0⟩
        ⟨5, 5⟩).setData [1, 2, 3]).state._data.size.x *
      (((CollocatedVectorGrid2.new ⟨1, 1⟩ ⟨0, 0⟩).resize ⟨3, 2⟩ ⟨1, 1⟩ ⟨0, 0⟩
        ⟨5, 5⟩).setData [1, 2, 3]).state._data.size.y ∧
    2 * (((CollocatedVectorGrid2.new ⟨1, 1⟩ ⟨0, 0⟩).resize ⟨3, 2⟩ ⟨1, 1⟩ ⟨0, 0⟩
      ⟨5, 5⟩).setData [1, 2, 3]).state.dataSize.x *
      (((CollocatedVectorGrid2.new ⟨1, 1⟩ ⟨0, 0⟩).resize ⟨3, 2⟩ ⟨1, 1⟩ ⟨0, 0⟩
        ⟨5, 5⟩).setData [1, 2, 3]).state.dataSize.y =
      2 * (((CollocatedVectorGrid2.new ⟨1, 1⟩ ⟨0, 0⟩).resize ⟨3, 2⟩ ⟨1, 1⟩ ⟨0, 0⟩
        ⟨5, 5⟩).setData [1, 2, 3]).state.forEachDataPointIndex.length :=
  ⟨Reachable.setData _ _ (Reachable.resize _ _ _ _ _ (Reachable.new _ _)),
    size_invariant _ (Reachable.setData _ _ (Reachable.resize _ _ _ _ _ (Reachable.new _ _)))⟩

/-! ## The cached sampler -/

/-- C17, as stated, fails: the default constructor builds `_linearSampler` over
the empty backing array, and `resize` to the resolution `(0, 0)` as well as
`setCollocatedVectorGrid` from a default-constructed grid rebuild the sampler
over an empty array; nothing is rejected. -/
theorem sampler_built_over_empty_storage :
    ((CollocatedVectorGrid2.new ⟨1, 1⟩ ⟨0, 0⟩)._data.data = [] ∧
      (CollocatedVectorGrid2.new ⟨1, 1⟩ ⟨0, 0⟩)._linearSampler =
        LinearArraySampler2.create ⟨⟨0, 0⟩, []⟩ ⟨1, 1⟩ ⟨0, 0⟩) ∧
    ((sampleGrid.resize ⟨0, 0⟩ ⟨1, 1⟩ ⟨0, 0⟩ ⟨5, 5⟩)._data.data = [] ∧
      (sampleGrid.resize ⟨0, 0⟩ ⟨1, 1⟩ ⟨0, 0⟩ ⟨5, 5⟩)._linearSampler =
        LinearArraySampler2.create ⟨⟨0, 0⟩, []⟩ ⟨1, 1⟩ ⟨0, 0⟩ ∧
      (sampleGrid.resize ⟨0, 0⟩ ⟨1, 1⟩ ⟨0, 0⟩ ⟨5, 5⟩)._sampler =
        some (LinearArraySampler2.create ⟨⟨0, 0⟩, []⟩ ⟨1, 1⟩ ⟨0, 0⟩).functor) ∧
    ((sampleGrid.setCollocatedVectorGrid (CollocatedVectorGrid2.new ⟨1, 1⟩ ⟨0, 0⟩)).1._data.data
        = [] ∧
      (sampleGrid.setCollocatedVectorGrid (CollocatedVectorGrid2.new ⟨1, 1⟩ ⟨0, 0⟩)).1._linearSampler
        = LinearArraySampler2.create ⟨⟨0, 0⟩, []⟩ ⟨1, 1⟩ ⟨0, 0⟩) := by
  decide

/-- C17, amended: every operation that constructs or rebuilds the cached sampler
builds it over the backing array as it is at that point, without a check for
emptiness.  The view of the sampler always has the size of the backing array:
`(0, 0)` after the default constructor (with spacing `(1, 1)` and origin
`(0, 0)`), the data size of the requested resolution after `resize`, zero-sized
included, and the size of the array of `other` after `setCollocatedVectorGrid`. -/
theorem sampler_built_over_current_storage :
    (∀ gridSpacing origin : Vector2D,
      (CollocatedVectorGrid2.new gridSpacing origin)._linearSampler.viewSize =
        (CollocatedVectorGrid2.new gridSpacing origin)._data.size ∧
      (CollocatedVectorGrid2.new gridSpacing origin)._data.size = ⟨0, 0⟩ ∧
      (CollocatedVectorGrid2.new gridSpacing origin)._linearSampler.gridSpacing = ⟨1, 1⟩ ∧
      (CollocatedVectorGrid2.new gridSpacing origin)._linearSampler.gridOrigin = ⟨0, 0⟩) ∧
    (∀ (g : CollocatedVectorGrid2) (resolution : Vector2UZ) (gridSpacing origin v0 : Vector2D),
      (g.resize resolution gridSpacing origin v0)._linearSampler.viewSize =
        (g.resize resolution gridSpacing origin v0)._data.size ∧
      (g.resize resolution gridSpacing origin v0)._sampler =
        some (g.resize resolution gridSpacing origin v0)._linearSampler.functor ∧
      (g.resize resolution gridSpacing origin v0)._data.size = resolution ∧
      (g.resize resolution gridSpacing origin v0)._data.data.length =
        resolution.x * resolution.y) ∧
    (∀ g other : CollocatedVectorGrid2,
      (g.setCollocatedVectorGrid other).1._linearSampler.viewSize =
        (g.setCollocatedVectorGrid other).1._data.size ∧
      (g.setCollocatedVectorGrid other).1._sampler =
        some (g.setCollocatedVectorGrid other).1._linearSampler.functor ∧
      (g.setCollocatedVectorGrid other).1._data.size = other._data.size ∧
      (g.setCollocatedVectorGrid other).1._data.data.length = other._data.data.length) := by
  refine ⟨fun _ _ => ⟨rfl, rfl, rfl, rfl⟩, fun g resolution _ _ _ => ⟨rfl, rfl, rfl, ?_⟩,
    fun g other => ⟨rfl, rfl, rfl, ?_⟩⟩
  · simp [CollocatedVectorGrid2.resize, CollocatedVectorGrid2.onResize,
      CollocatedVectorGrid2.resetSampler, Array2.resize, forEachIndex_length,
      CollocatedVectorGrid2.dataSize]
  · simp [CollocatedVectorGrid2.setCollocatedVectorGrid, CollocatedVectorGrid2.resetSampler,
      Array2.copyFrom]

/-- C18: after every `resize`, one with an unchanged resolution included, and
after every `setCollocatedVectorGrid`, the cached sampler is current: the spacing
and origin of `_linearSampler` and of the function object in `_sampler` are the
grid's `gridSpacing()` and `dataOrigin()` after the operation, their view has the
size of the backing array after the operation, and `sample(p)` is the call of that
sampler on the backing array after the operation. -/
theorem sampler_current_after_rebuild :
    (∀ (g : CollocatedVectorGrid2) (resolution : Vector2UZ) (gridSpacing origin v0 : Vector2D),
      (g.resize resolution gridSpacing origin v0).SamplerCurrent ∧
      (g.resize resolution gridSpacing origin v0)._linearSampler.gridSpacing =
        (g.resize resolution gridSpacing origin v0).gridSpacing ∧
      (g.resize resolution gridSpacing origin v0)._linearSampler.gridOrigin =
        (g.resize resolution gridSpacing origin v0).dataOrigin ∧
      (g.resize resolution gridSpacing origin v0)._linearSampler.viewSize =
        (g.resize resolution gridSpacing origin v0)._data.size ∧
      (g.resize resolution gridSpacing origin v0).gridSpacing = gridSpacing ∧
      (g.resize resolution gridSpacing origin v0).dataOrigin = origin ∧
      ∀ p, (g.resize resolution gridSpacing origin v0).sample p =
        (LinearArraySampler2.create (g.resize resolution gridSpacing origin v0)._data
          gridSpacing origin).call (g.resize resolution gridSpacing origin v0)._data p) ∧
    (∀ g other : CollocatedVectorGrid2,
      (g.setCollocatedVectorGrid other).1.SamplerCurrent ∧
      (g.setCollocatedVectorGrid other).1._linearSampler.gridSpacing =
        (g.setCollocatedVectorGrid other).1.gridSpacing ∧
      (g.setCollocatedVectorGrid other).1._linearSampler.gridOrigin =
        (g.setCollocatedVectorGrid other).1.dataOrigin ∧
      (g.setCollocatedVectorGrid other).1._linearSampler.viewSize =
        (g.setCollocatedVectorGrid other).1._data.size ∧
      ∀ p, (g.setCollocatedVectorGrid other).1.sample p =
        (LinearArraySampler2.create (g.setCollocatedVectorGrid other).1._data
          other.gridSpacing other.dataOrigin).call (g.setCollocatedVectorGrid other).1._data p) := by
  refine ⟨fun g resolution gridSpacing origin v0 => ⟨⟨rfl, rfl⟩, rfl, rfl, rfl, rfl, rfl, ?_⟩,
    fun g other => ⟨⟨rfl, rfl⟩, rfl, rfl, rfl, ?_⟩⟩
  · intro p; rfl
  · intro p; rfl

/-! ## Algebraic relations between the point operators -/

theorem rotated_valid (g : CollocatedVectorGrid2) (hv : g.Valid) : g.rotated.Valid := by
  obtain ⟨⟨h1, h2, h3, h4⟩, h5⟩ := hv
  exact ⟨⟨h1, h2, by simpa [CollocatedVectorGrid2.rotated] using h3, h4⟩, h5⟩

theorem rotated_get? (g : CollocatedVectorGrid2) (a b : Nat) (v : Vector2D)
    (h : g._data.get? a b = .ok v) : g.rotated._data.get? a b = .ok ⟨v.y, -v.x⟩ := by
  unfold Array2.get? at h ⊢
  simp only [CollocatedVectorGrid2.rotated, List.getElem?_map]
  split_ifs at h ⊢ with hc
  · cases hq : g._data.data[a + g._data.size.x * b]? with
    | none => rw [hq] at h; cases h
    | some q =>
      rw [hq] at h
      simp only [Except.ok.injEq] at h
      simp [h]

/-- C19: on a well-formed grid `G` with positive spacing, at every valid index
`(i, j)`, boundary indices included, `curlAtDataPoint(i, j)` on `G` succeeds and
equals `divergenceAtDataPoint(i, j)` on the grid with the same geometry whose
element at every index `(a, b)` is `(G(a, b).y, -G(a, b).x)`. -/
theorem curl_eq_divergence_of_rotated (g : CollocatedVectorGrid2) (hv : g.Valid)
    (hsx : 0 < g.gridSpacing.x) (hsy : 0 < g.gridSpacing.y) (i j : Nat)
    (hi : i < g.resolution.x) (hj : j < g.resolution.y) :
    (g.rotated.resolution = g.resolution ∧ g.rotated.gridSpacing = g.gridSpacing ∧
      g.rotated.origin = g.origin) ∧
    (∀ a b v, g.get a b = .ok v → g.rotated.get a b = .ok ⟨v.y, -v.x⟩) ∧
    ∃ c : ℚ, g.curlAtDataPoint i j = .ok c ∧ g.rotated.divergenceAtDataPoint i j = .ok c := by
  have hres : g.resolution = g._data.size := hv.2.symm
  rw [hres] at hi hj
  refine ⟨⟨rfl, rfl, rfl⟩, fun a b v h => rotated_get? g a b v h, ?_⟩
  obtain ⟨vL, vR, vD, vU, hL, hR, hD, hU, hcurl⟩ := curlAtDataPoint_value g i j hv hi hj
  obtain ⟨wL, wR, wD, wU, hL', hR', hD', hU', hdiv⟩ :=
    divergenceAtDataPoint_value g.rotated i j (rotated_valid g hv) hi hj
  have eL := (rotated_get? g _ _ vL hL).symm.trans hL'
  have eR := (rotated_get? g _ _ vR hR).symm.trans hR'
  have eD := (rotated_get? g _ _ vD hD).symm.trans hD'
  have eU := (rotated_get? g _ _ vU hU).symm.trans hU'
  simp only [Except.ok.injEq] at eL eR eD eU
  refine ⟨_, hcurl, ?_⟩
  rw [hdiv, ← eL, ← eR, ← eD, ← eU]
  have hne1 : g.gridSpacing.x ≠ 0 := ne_of_gt hsx
  have hne2 : g.gridSpacing.y ≠ 0 := ne_of_gt hsy
  congr 1
  show 0.5 * (vR.y - vL.y) / g.gridSpacing.x + 0.5 * (-vU.x - -vD.x) / g.gridSpacing.y = _
  field_simp
  ring

theorem curl_eq_divergence_of_rotated_witness :
    sampleGrid.Valid ∧
    (sampleGrid.rotated.resolution = sampleGrid.resolution ∧
      sampleGrid.rotated.gridSpacing = sampleGrid.gridSpacing ∧
      sampleGrid.rotated.origin = sampleGrid.origin) ∧
    (∀ a b v, sampleGrid.get a b = .ok v → sampleGrid.rotated.get a b = .ok ⟨v.y, -v.x⟩) ∧
    ∃ c : ℚ, sampleGrid.curlAtDataPoint 1 1 = .ok c ∧
      sampleGrid.rotated.divergenceAtDataPoint 1 1 = .ok c :=
  ⟨by decide, curl_eq_divergence_of_rotated sampleGrid (by decide) (by decide) (by decide) 1 1
    (by decide) (by decide)⟩

/-- C20: on a well-formed, non-empty grid with positive spacing whose every
element is the same vector `c`, `divergenceAtDataPoint` and `curlAtDataPoint` are
`0` at every valid index, and (the sampler viewing the backing array)
`divergence(p)` and `curl(p)` are `0` at every position `p`. -/
theorem uniform_field_divergence_curl_zero (g : CollocatedVectorGrid2) (hv : g.Valid)
    (hview : g._linearSampler.viewSize = g._data.size)
    (hne : 0 < g.resolution.x ∧ 0 < g.resolution.y)
    (hsx : 0 < g.gridSpacing.x) (hsy : 0 < g.gridSpacing.y) (c : Vector2D)
    (hc : ∀ a b v, g.get a b = .ok v → v = c) :
    (∀ i j, i < g.resolution.x → j < g.resolution.y →
      g.divergenceAtDataPoint i j = .ok 0 ∧ g.curlAtDataPoint i j = .ok 0) ∧
    (∀ p : Vector2D, g.divergence p = .ok 0 ∧ g.curl p = .ok 0) := by
  have hres : g.resolution = g._data.size := hv.2.symm
  rw [hres] at hne ⊢
  have hne1 : g.gridSpacing.x ≠ 0 := ne_of_gt hsx
  have hne2 : g.gridSpacing.y ≠ 0 := ne_of_gt hsy
  have hpoint : ∀ i j, i < g._data.size.x → j < g._data.size.y →
      g.divergenceAtDataPoint i j = .ok 0 ∧ g.curlAtDataPoint i j = .ok 0 := by
    intro i j hi hj
    obtain ⟨vL, vR, vD, vU, hL, hR, hD, hU, hdiv⟩ := divergenceAtDataPoint_value g i j hv hi hj
    obtain ⟨wL, wR, wD, wU, hL', hR', hD', hU', hcurl⟩ := curlAtDataPoint_value g i j hv hi hj
    rw [hc _ _ _ hL, hc _ _ _ hR, hc _ _ _ hD, hc _ _ _ hU] at hdiv
    rw [hc _ _ _ hL', hc _ _ _ hR', hc _ _ _ hD', hc _ _ _ hU'] at hcurl
    constructor
    · rw [hdiv]; congr 1; field_simp
    · rw [hcurl]; congr 1; field_simp
  refine ⟨hpoint, ?_⟩
  intro p
  have hidx : ∀ k, ((g._linearSampler.getCoordinatesAndWeights p).1 k).x < g._data.size.x ∧
      ((g._linearSampler.getCoordinatesAndWeights p).1 k).y < g._data.size.y := by
    intro k
    have h := kernel_indices_lt g._linearSampler p (hview ▸ hne.1) (hview ▸ hne.2)
      (hview ▸ hv.1.1) (hview ▸ hv.1.2.1) k
    rw [hview] at h
    exact h
  have hd : ∀ k, g.divergenceAtDataPoint ((g._linearSampler.getCoordinatesAndWeights p).1 k).x
      ((g._linearSampler.getCoordinatesAndWeights p).1 k).y = .ok 0 :=
    fun k => (hpoint _ _ (hidx k).1 (hidx k).2).1
  have hcu : ∀ k, g.curlAtDataPoint ((g._linearSampler.getCoordinatesAndWeights p).1 k).x
      ((g._linearSampler.getCoordinatesAndWeights p).1 k).y = .ok 0 :=
    fun k => (hpoint _ _ (hidx k).1 (hidx k).2).2
  constructor
  · simp only [CollocatedVectorGrid2.divergence, List.foldlM_cons, List.foldlM_nil, hd, bind,
      Except.bind, pure, Except.pure, mul_zero, add_zero]
  · simp only [CollocatedVectorGrid2.curl, List.foldlM_cons, List.foldlM_nil, hcu, bind,
      Except.bind, pure, Except.pure, mul_zero, add_zero]

theorem uniformGrid_elements (a b : Nat) (v : Vector2D) (h : uniformGrid.get a b = .ok v) :
    v = ⟨3, -4⟩ := by
  unfold CollocatedVectorGrid2.get Array2.get? at h
  simp only [uniformGrid, List.getElem?_replicate] at h
  split_ifs at h with h1 h2
  · simp only [Except.ok.injEq] at h
    exact h.symm

theorem uniform_field_divergence_curl_zero_witness :
    uniformGrid.Valid ∧
    (∀ i j, i < uniformGrid.resolution.x → j < uniformGrid.resolution.y →
      uniformGrid.divergenceAtDataPoint i j = .ok 0 ∧ uniformGrid.curlAtDataPoint i j = .ok 0) ∧
    (∀ p : Vector2D, uniformGrid.divergence p = .ok 0 ∧ uniformGrid.curl p = .ok 0) :=
  ⟨by decide, uniform_field_divergence_curl_zero uniformGrid (by decide) (by decide) (by decide)
    (by decide) (by decide) ⟨3, -4⟩ uniformGrid_elements⟩

end jet
